import Mathlib

/-!
Verification of the UCP validation engine
(`packages/core/src/validation/index.ts` and `packages/core/src/types/index.ts`).

The engine receives an untyped JSON-like value, parses it against the
`MemoryEntrySchema` envelope and the five variant content schemas, and then
runs four independent field validators (project name, branch name, content
size, embedding), merging their errors.

JavaScript values are embedded as `Value`; JS numbers (which include `NaN`
and the infinities under `typeof x === "number"`) are embedded as `JNum`
with rationals carrying the finite values.  The `zod` schema library used by
the source is not part of the source tree; its combinator semantics
(`z.object`, `z.string`, `.optional`, `.nullable`, collect-all-issues) are
modelled from the spec sections on the Structural Validator and the Type
Dispatcher, while the schema shapes themselves are translated from
`types/index.ts`.
-/

/-- A JavaScript number: a finite value (carried as a rational), `NaN`,
or one of the two infinities. -/
inductive JNum where
  | fin (q : ℚ)
  | nan
  | posInf
  | negInf
deriving DecidableEq, Repr

namespace JNum

/-- `isNaN` from JS. -/
def isNaN : JNum → Bool
  | .nan => true
  | _ => false

/-- `isFinite` from JS. -/
def isFinite : JNum → Bool
  | .fin _ => true
  | _ => false

/-- JS `<` against a rational bound (`NaN` compares false). -/
def blt (n : JNum) (q : ℚ) : Bool :=
  match n with
  | .fin x => x < q
  | .nan => false
  | .posInf => false
  | .negInf => true

/-- JS `>` against a rational bound (`NaN` compares false). -/
def bgt (n : JNum) (q : ℚ) : Bool :=
  match n with
  | .fin x => q < x
  | .nan => false
  | .posInf => true
  | .negInf => false

end JNum

/-- A decoded JSON-like JavaScript value (the `unknown` inputs of the
validators).  Objects are key/value lists; lookup takes the first match. -/
inductive Value where
  | null
  | bool (b : Bool)
  | num (n : JNum)
  | str (s : String)
  | arr (xs : List Value)
  | obj (fields : List (String × Value))
deriving Repr

/-- First-match lookup of a key in an object field list
(JS property access on a JSON-decoded object). -/
def lookupField (k : String) : List (String × Value) → Option Value
  | [] => none
  | (k₁, v) :: rest => if k₁ = k then some v else lookupField k rest

mutual

/-- Decidable equality for `Value`. -/
def Value.beq : Value → Value → Bool
  | .null, .null => true
  | .bool a, .bool b => a = b
  | .num a, .num b => a = b
  | .str a, .str b => a = b
  | .arr a, .arr b => Value.beqList a b
  | .obj a, .obj b => Value.beqFields a b
  | _, _ => false

/-- Decidable equality on value lists. -/
def Value.beqList : List Value → List Value → Bool
  | [], [] => true
  | a :: as₁, b :: bs₁ => Value.beq a b && Value.beqList as₁ bs₁
  | _, _ => false

/-- Decidable equality on field lists. -/
def Value.beqFields : List (String × Value) → List (String × Value) → Bool
  | [], [] => true
  | (k₁, a) :: as₁, (k₂, b) :: bs₁ => k₁ = k₂ && Value.beq a b && Value.beqFields as₁ bs₁
  | _, _ => false

end

mutual

theorem Value.beq_iff : ∀ a b : Value, Value.beq a b = true ↔ a = b
  | .null, .null => by simp [Value.beq]
  | .null, .bool _ | .null, .num _ | .null, .str _ | .null, .arr _ | .null, .obj _ => by
      simp [Value.beq]
  | .bool _, .null | .bool _, .num _ | .bool _, .str _ | .bool _, .arr _ | .bool _, .obj _ => by
      simp [Value.beq]
  | .num _, .null | .num _, .bool _ | .num _, .str _ | .num _, .arr _ | .num _, .obj _ => by
      simp [Value.beq]
  | .str _, .null | .str _, .bool _ | .str _, .num _ | .str _, .arr _ | .str _, .obj _ => by
      simp [Value.beq]
  | .arr _, .null | .arr _, .bool _ | .arr _, .num _ | .arr _, .str _ | .arr _, .obj _ => by
      simp [Value.beq]
  | .obj _, .null | .obj _, .bool _ | .obj _, .num _ | .obj _, .str _ | .obj _, .arr _ => by
      simp [Value.beq]
  | .bool a, .bool b => by simp [Value.beq]
  | .num a, .num b => by simp [Value.beq]
  | .str a, .str b => by simp [Value.beq]
  | .arr a, .arr b => by
      simpa [Value.beq] using Value.beqList_iff a b
  | .obj a, .obj b => by
      simpa [Value.beq] using Value.beqFields_iff a b

theorem Value.beqList_iff : ∀ a b : List Value, Value.beqList a b = true ↔ a = b
  | [], [] => by simp [Value.beqList]
  | [], _ :: _ => by simp [Value.beqList]
  | _ :: _, [] => by simp [Value.beqList]
  | a :: as₁, b :: bs₁ => by
      simp [Value.beqList, Bool.and_eq_true, Value.beq_iff a b, Value.beqList_iff as₁ bs₁]

theorem Value.beqFields_iff :
    ∀ a b : List (String × Value), Value.beqFields a b = true ↔ a = b
  | [], [] => by simp [Value.beqFields]
  | [], _ :: _ => by simp [Value.beqFields]
  | _ :: _, [] => by simp [Value.beqFields]
  | (k₁, a) :: as₁, (k₂, b) :: bs₁ => by
      simp [Value.beqFields, Bool.and_eq_true, Value.beq_iff a b,
        Value.beqFields_iff as₁ bs₁, and_assoc]

end

instance : DecidableEq Value := fun a b =>
  decidable_of_iff (Value.beq a b = true) (Value.beq_iff a b)

/-- The `typeof`-style type name of a value (used in `zod` invalid-type
messages).  Modelled from the spec: the structural validator reports
shape errors naming the received kind; JS classifies every `number`
(including `NaN` and the infinities) as `"number"`. -/
def Value.typeName : Value → String
  | .null => "null"
  | .bool _ => "boolean"
  | .num _ => "number"
  | .str _ => "string"
  | .arr _ => "array"
  | .obj _ => "object"

/-- UTF-8 byte length of a character list
(`new TextEncoder().encode(s).length` in the source). -/
def utf8LenChars : List Char → Nat
  | [] => 0
  | c :: rest => c.utf8Size + utf8LenChars rest

/-- UTF-8 byte length of a string. -/
def utf8Len (s : String) : Nat := utf8LenChars s.data

/-- Two-digit lowercase hex rendering of a small code point,
for `\u00XX` escapes. -/
def hexByte (n : Nat) : String :=
  let digit : Nat → Char := fun d => if d < 10 then Char.ofNat (48 + d) else Char.ofNat (87 + d)
  String.mk [digit (n / 16 % 16), digit (n % 16)]

/-- JSON escaping of one character, as `JSON.stringify` performs it:
quote and backslash are escaped, the named control characters use their
short escapes, other control characters use `\u00XX`, everything else is
emitted literally. -/
def escapeChar (c : Char) : String :=
  if c = '"' then "\\\""
  else if c = '\\' then "\\\\"
  else if c = '\n' then "\\n"
  else if c = '\r' then "\\r"
  else if c = '\t' then "\\t"
  else if c = Char.ofNat 8 then "\\b"
  else if c = Char.ofNat 12 then "\\f"
  else if c.toNat < 32 then "\\u00" ++ hexByte c.toNat
  else String.mk [c]

/-- JSON escaping of a string body. -/
def escapeString (s : String) : String :=
  s.data.foldr (fun c acc => escapeChar c ++ acc) ""

/-- Rendering of a JS number in JSON output.  `NaN` and the infinities
serialize as `null` (`JSON.stringify` semantics).  Modelled from the spec:
content is serialized "to its canonical text form"; the shortest-round-trip
float formatting of JS is abstracted, integers render as their decimal
digits and non-integral rationals as `num/den`. -/
def JNum.render : JNum → String
  | .fin q => if q.den = 1 then toString q.num else toString q.num ++ "/" ++ toString q.den
  | .nan => "null"
  | .posInf => "null"
  | .negInf => "null"

mutual

/-- `JSON.stringify` on the embedded values (the source serializes the
content this way before measuring its UTF-8 size). -/
def jsonStringify : Value → String
  | .null => "null"
  | .bool b => if b then "true" else "false"
  | .num n => n.render
  | .str s => "\"" ++ escapeString s ++ "\""
  | .arr xs => "[" ++ jsonArray xs ++ "]"
  | .obj fields => "\x7b" ++ jsonObject fields ++ "\x7d"

/-- Comma-joined serialization of array elements. -/
def jsonArray : List Value → String
  | [] => ""
  | [x] => jsonStringify x
  | x :: y :: rest => jsonStringify x ++ "," ++ jsonArray (y :: rest)

/-- Comma-joined serialization of object members. -/
def jsonObject : List (String × Value) → String
  | [] => ""
  | [(k, v)] => "\"" ++ escapeString k ++ "\":" ++ jsonStringify v
  | (k, v) :: kv :: rest =>
      "\"" ++ escapeString k ++ "\":" ++ jsonStringify v ++ "," ++ jsonObject (kv :: rest)

end

/-- A `zod` validation issue, as surfaced by a failed `.parse`.
Modelled from the spec: the structural validator and type dispatcher
return path-addressed violations; `received`/`expected` mirror the
fields `parseZodError` copies into the error context. -/
structure ZodIssue where
  code : String
  message : String
  path : List String
  received : Option String
  expected : Option String
deriving DecidableEq, Repr

/-- `ValidationError` from `validation/index.ts`: code, message, optional
field path, optional context. -/
structure ValidationError where
  code : String
  message : String
  path : Option (List String)
  context : Option (List (String × Option String))
deriving DecidableEq, Repr

/-- `ValidationResult<T>` from `validation/index.ts`: a success flag, the
validated data when successful, and the errors otherwise. -/
structure ValidationResult (α : Type) where
  success : Bool
  data : Option α
  errors : Option (List ValidationError)
deriving DecidableEq, Repr

/-- Success result (`{ success: true, data }`). -/
def VOk {α : Type} (a : α) : ValidationResult α := ⟨true, some a, none⟩

/-- Failure result (`{ success: false, errors }`). -/
def VErr {α : Type} (es : List ValidationError) : ValidationResult α := ⟨false, none, some es⟩

/-- `MemoryEntryValidator.parseZodError`: maps each `zod` issue to a
`ValidationError` with stringified path and a `received`/`expected`
context. -/
def parseZodError (issues : List ZodIssue) : List ValidationError :=
  issues.map (fun i =>
    ⟨i.code, i.message, some i.path, some [("received", i.received), ("expected", i.expected)]⟩)

/-- Pairing combinator for issue-collecting parsers: succeeds when both
sides succeed, and concatenates the issue lists otherwise (the
collect-all-violations behavior of `z.object`).  Modelled from the spec:
"All violations across these checks are collected and returned together". -/
def zipE {α β : Type} :
    Except (List ZodIssue) α → Except (List ZodIssue) β → Except (List ZodIssue) (α × β)
  | .ok a, .ok b => .ok (a, b)
  | .ok _, .error es => .error es
  | .error es, .ok _ => .error es
  | .error es, .error fs => .error (es ++ fs)

/-- The issues of a parse outcome (empty on success). -/
def issuesOf {α : Type} : Except (List ZodIssue) α → List ZodIssue
  | .ok _ => []
  | .error es => es

/-- Re-roots every issue of a list under an extra leading path segment
(`zod` prefixes the owning key when descending into a field). -/
def withKeyPath (k : String) (issues : List ZodIssue) : List ZodIssue :=
  issues.map (fun i => ⟨i.code, i.message, k :: i.path, i.received, i.expected⟩)

/-- Hexadecimal digit test for the UUID format. -/
def isHexDigit (c : Char) : Bool :=
  c.isDigit || (('a' ≤ c) && (c ≤ 'f')) || (('A' ≤ c) && (c ≤ 'F'))

/-- Consumes exactly `n` characters satisfying `p`, returning the rest. -/
def takeExact (p : Char → Bool) : Nat → List Char → Option (List Char)
  | 0, l => some l
  | _ + 1, [] => none
  | n + 1, c :: l => if p c then takeExact p n l else none

/-- Consumes one expected character, returning the rest. -/
def expectChar (ch : Char) : List Char → Option (List Char)
  | [] => none
  | c :: l => if c = ch then some l else none

/-- `z.string().uuid()`: 8-4-4-4-12 hexadecimal groups separated by
hyphens.  Modelled from the spec: "`id` is UUID-formatted" (the `zod`
library implementing the check is not part of the source tree). -/
def isUUID (s : String) : Bool :=
  match (do
    let l ← takeExact isHexDigit 8 s.data
    let l ← expectChar '-' l
    let l ← takeExact isHexDigit 4 l
    let l ← expectChar '-' l
    let l ← takeExact isHexDigit 4 l
    let l ← expectChar '-' l
    let l ← takeExact isHexDigit 4 l
    let l ← expectChar '-' l
    takeExact isHexDigit 12 l : Option (List Char)) with
  | some [] => true
  | _ => false

/-- Optional fractional-seconds part: either no `.`, or `.` followed by at
least one digit. -/
def fracSeconds : List Char → Option (List Char)
  | '.' :: rest =>
      let ds := rest.takeWhile Char.isDigit
      if ds.isEmpty then none else some (rest.drop ds.length)
  | l => some l

/-- `z.string().datetime()`: `YYYY-MM-DDTHH:MM:SS(.fraction)?Z`.
Modelled from the spec: "`timestamp` parses as ISO-8601" (the `zod`
library implementing the check is not part of the source tree). -/
def isDatetime (s : String) : Bool :=
  match (do
    let l ← takeExact Char.isDigit 4 s.data
    let l ← expectChar '-' l
    let l ← takeExact Char.isDigit 2 l
    let l ← expectChar '-' l
    let l ← takeExact Char.isDigit 2 l
    let l ← expectChar 'T' l
    let l ← takeExact Char.isDigit 2 l
    let l ← expectChar ':' l
    let l ← takeExact Char.isDigit 2 l
    let l ← expectChar ':' l
    let l ← takeExact Char.isDigit 2 l
    let l ← fracSeconds l
    expectChar 'Z' l : Option (List Char)) with
  | some [] => true
  | _ => false

/-- The five `MemoryEntryType` discriminant values (`types/index.ts`). -/
def memoryEntryTypes : List String :=
  ["TaskState", "CommitDelta", "ReasoningEntry", "SummaryCheckpoint", "BranchMeta"]

/-- The three `MemoryEntryStatus` values (`types/index.ts`). -/
def memoryEntryStatuses : List String := ["draft", "verified", "archived"]

/-- Invalid-type issue (wrong runtime kind for a field). -/
def invalidTypeIssue (expected : String) (receivedTy : String) (path : List String) : ZodIssue :=
  ⟨"invalid_type", "Expected " ++ expected ++ ", received " ++ receivedTy, path,
    some receivedTy, some expected⟩

/-- Missing-required-field issue (`zod` reports `Required`). -/
def requiredIssue (expected : String) (path : List String) : ZodIssue :=
  ⟨"invalid_type", "Required", path, some "undefined", some expected⟩

/-- A parser in the sense of a `zod` schema: consumes a value, returns the
parsed value or all collected issues (with paths relative to the value). -/
def ZParser : Type := Value → Except (List ZodIssue) Value

/-- `z.string()`. -/
def zString : ZParser := fun v =>
  match v with
  | .str s => .ok (.str s)
  | w => .error [invalidTypeIssue "string" w.typeName []]

/-- `z.number()`.  Modelled from the spec: a JS number (`embedding` is an
"optional list of floats"; `NaN` and the infinities are numbers to JS and
are caught later by the embedding field validator, §4.4). -/
def zNumber : ZParser := fun v =>
  match v with
  | .num n => .ok (.num n)
  | w => .error [invalidTypeIssue "number" w.typeName []]

/-- `z.number().min(lo).max(hi)`: range checks collected together. -/
def zNumberRange (lo hi : ℚ) : ZParser := fun v =>
  match v with
  | .num n =>
      let es :=
        (if n.blt lo then
          [⟨"too_small", "Number must be greater than or equal to " ++ toString lo.num,
            [], none, none⟩] else []) ++
        (if n.bgt hi then
          [⟨"too_big", "Number must be less than or equal to " ++ toString hi.num,
            [], none, none⟩] else [])
      if es.isEmpty then .ok (.num n) else .error es
  | w => .error [invalidTypeIssue "number" w.typeName []]

/-- `z.string().datetime()` as a content-field parser. -/
def zDatetime : ZParser := fun v =>
  match v with
  | .str s =>
      if isDatetime s then .ok (.str s)
      else .error [⟨"invalid_string", "Invalid datetime", [], none, none⟩]
  | w => .error [invalidTypeIssue "string" w.typeName []]

/-- `z.enum([...])` over string literals. -/
def zEnum (vals : List String) : ZParser := fun v =>
  match v with
  | .str s =>
      if s ∈ vals then .ok (.str s)
      else .error [⟨"invalid_enum_value",
        "Invalid enum value, received " ++ s, [], some s, none⟩]
  | w => .error [invalidTypeIssue "string" w.typeName []]

/-- `z.record(z.unknown())`: any object, passed through unchanged. -/
def zRecord : ZParser := fun v =>
  match v with
  | .obj kvs => .ok (.obj kvs)
  | w => .error [invalidTypeIssue "object" w.typeName []]

/-- One member check of `z.record(z.number())`. -/
def zRecordNumberField1 (k : String) : Value → Except (List ZodIssue) (List (String × Value))
  | .num n => .ok [(k, .num n)]
  | w => .error [invalidTypeIssue "number" w.typeName [k]]

/-- Element loop of `z.record(z.number())`: every member value must be a
number; issues are keyed by member name; values pass through. -/
def zRecordNumberFields : List (String × Value) → Except (List ZodIssue) (List (String × Value))
  | [] => .ok []
  | (k, v) :: rest =>
      (zipE (zRecordNumberField1 k v) (zRecordNumberFields rest)).map (fun pr => pr.1 ++ pr.2)

/-- `z.record(z.number())`. -/
def zRecordNumber : ZParser := fun v =>
  match v with
  | .obj kvs => (zRecordNumberFields kvs).map .obj
  | w => .error [invalidTypeIssue "object" w.typeName []]

/-- Element loop of `z.array(p)` with index-addressed issues. -/
def zArrayElems (p : ZParser) : Nat → List Value → Except (List ZodIssue) (List Value)
  | _, [] => .ok []
  | i, x :: rest =>
      (zipE ((p x).mapError (withKeyPath (toString i))) (zArrayElems p (i + 1) rest)).map
        (fun pr => pr.1 :: pr.2)

/-- `z.array(p)`. -/
def zArray (p : ZParser) : ZParser := fun v =>
  match v with
  | .arr xs => (zArrayElems p 0 xs).map .arr
  | w => .error [invalidTypeIssue "array" w.typeName []]

/-- `z.tuple([z.number(), z.number()])` (the `lines` pair of a code
reference). -/
def zTupleNum2 : ZParser := fun v =>
  match v with
  | .arr [a, b] =>
      (zipE ((zNumber a).mapError (withKeyPath "0"))
            ((zNumber b).mapError (withKeyPath "1"))).map
        (fun pr => .arr [pr.1, pr.2])
  | .arr xs => .error [⟨"invalid_tuple", "Expected a pair, received " ++
      toString xs.length ++ " element(s)", [], none, none⟩]
  | w => .error [invalidTypeIssue "array" w.typeName []]

/-- One field of a `z.object` shape: key, optionality, member schema. -/
structure FieldSpec where
  key : String
  optional : Bool
  p : ZParser

/-- Field loop of `z.object`: walks the shape in declaration order,
collects every member's issues (key-prefixed), and rebuilds the object
from the parsed members in shape order, dropping unknown keys. -/
def zFields (fs : List FieldSpec) (kvs : List (String × Value)) :
    Except (List ZodIssue) (List (String × Value)) :=
  match fs with
  | [] => .ok []
  | f :: rest =>
      let head : Except (List ZodIssue) (List (String × Value)) :=
        match lookupField f.key kvs with
        | none =>
            if f.optional then .ok []
            else .error [requiredIssue "value" [f.key]]
        | some v =>
            match f.p v with
            | .ok w => .ok [(f.key, w)]
            | .error es => .error (withKeyPath f.key es)
      (zipE head (zFields rest kvs)).map (fun pr => pr.1 ++ pr.2)

/-- `z.object({...})`: requires an object, then runs the field loop. -/
def zObject (fs : List FieldSpec) : ZParser := fun v =>
  match v with
  | .obj kvs => (zFields fs kvs).map .obj
  | w => .error [invalidTypeIssue "object" w.typeName []]

/-- `TaskStateContentSchema` (`types/index.ts`). -/
def taskStateContent : ZParser := zObject [
  ⟨"description", false, zString⟩,
  ⟨"goals", false, zArray zString⟩,
  ⟨"progress", false, zNumberRange 0 100⟩,
  ⟨"context", false, zRecord⟩,
  ⟨"activeFiles", false, zArray zString⟩,
  ⟨"workingDirectory", false, zString⟩,
  ⟨"dependencies", true, zArray zString⟩,
  ⟨"blockers", true, zArray zString⟩]

/-- The `author` member of `CommitDeltaContentSchema`. -/
def commitAuthorSchema : ZParser := zObject [
  ⟨"name", false, zString⟩,
  ⟨"email", false, zString⟩]

/-- One element of the `files` array of `CommitDeltaContentSchema`. -/
def commitFileSchema : ZParser := zObject [
  ⟨"path", false, zString⟩,
  ⟨"action", false, zEnum ["added", "modified", "deleted", "renamed"]⟩,
  ⟨"linesAdded", true, zNumber⟩,
  ⟨"linesDeleted", true, zNumber⟩]

/-- The `semantic` member of `CommitDeltaContentSchema`. -/
def commitSemanticSchema : ZParser := zObject [
  ⟨"functions", true, zArray zString⟩,
  ⟨"classes", true, zArray zString⟩,
  ⟨"imports", true, zArray zString⟩,
  ⟨"configs", true, zArray zString⟩]

/-- `CommitDeltaContentSchema` (`types/index.ts`). -/
def commitDeltaContent : ZParser := zObject [
  ⟨"commitHash", false, zString⟩,
  ⟨"message", false, zString⟩,
  ⟨"author", false, commitAuthorSchema⟩,
  ⟨"files", false, zArray commitFileSchema⟩,
  ⟨"semantic", true, commitSemanticSchema⟩]

/-- One element of the `codeRefs` array of `ReasoningEntryContentSchema`. -/
def codeRefSchema : ZParser := zObject [
  ⟨"file", false, zString⟩,
  ⟨"lines", true, zTupleNum2⟩,
  ⟨"content", true, zString⟩]

/-- `ReasoningEntryContentSchema` (`types/index.ts`). -/
def reasoningEntryContent : ZParser := zObject [
  ⟨"threadId", false, zString⟩,
  ⟨"model", false, zString⟩,
  ⟨"query", false, zString⟩,
  ⟨"response", false, zString⟩,
  ⟨"reasoning", true, zString⟩,
  ⟨"codeRefs", true, zArray codeRefSchema⟩,
  ⟨"actions", true, zArray zString⟩]

/-- The `period` member of `SummaryCheckpointContentSchema`. -/
def periodSchema : ZParser := zObject [
  ⟨"start", false, zDatetime⟩,
  ⟨"end", false, zDatetime⟩]

/-- `SummaryCheckpointContentSchema` (`types/index.ts`). -/
def summaryCheckpointContent : ZParser := zObject [
  ⟨"period", false, periodSchema⟩,
  ⟨"summary", false, zString⟩,
  ⟨"achievements", false, zArray zString⟩,
  ⟨"decisions", false, zArray zString⟩,
  ⟨"technicalDebt", true, zArray zString⟩,
  ⟨"metrics", true, zRecordNumber⟩,
  ⟨"compressedEntries", true, zArray zString⟩]

/-- The parsed `MemoryEntry` (`z.infer<typeof MemoryEntrySchema>` of
`types/index.ts`): `taskId` is nullable (`none` embeds `null`), the three
trailing fields are optional (`none` embeds an absent key). -/
structure MemoryEntry where
  id : String
  type : String
  project : String
  taskId : Option String
  branch : String
  timestamp : String
  status : String
  content : Value
  metadata : Option Value
  embedding : Option (List JNum)
  tags : Option (List String)
deriving DecidableEq, Repr

/-- `id: z.string().uuid()`. -/
def parseIdField : Option Value → Except (List ZodIssue) String
  | none => .error [requiredIssue "string" ["id"]]
  | some (.str s) =>
      if isUUID s then .ok s
      else .error [⟨"invalid_string", "Invalid uuid", ["id"], none, none⟩]
  | some w => .error [invalidTypeIssue "string" w.typeName ["id"]]

/-- The `type` member, with a pluggable discriminant check: the envelope
schema uses the 5-value native enum, each variant schema uses a literal. -/
def parseTypeWith (check : String → Option ZodIssue) :
    Option Value → Except (List ZodIssue) String
  | none => .error [requiredIssue "string" ["type"]]
  | some (.str s) =>
      match check s with
      | none => .ok s
      | some i => .error [i]
  | some w => .error [invalidTypeIssue "string" w.typeName ["type"]]

/-- `type: z.nativeEnum(MemoryEntryType)`: membership in the 5
discriminants; a failure names the received value. -/
def checkNativeEnum (s : String) : Option ZodIssue :=
  if s ∈ memoryEntryTypes then none
  else some ⟨"invalid_enum_value", "Invalid enum value, received " ++ s,
    ["type"], some s, none⟩

/-- `type: z.literal(lit)` of a variant schema. -/
def checkLiteral (lit : String) (s : String) : Option ZodIssue :=
  if s = lit then none
  else some ⟨"invalid_literal", "Invalid literal value, expected " ++ lit,
    ["type"], some s, some lit⟩

/-- `z.string().min(1)` members (`project`, `branch`). -/
def parseMin1String (key : String) : Option Value → Except (List ZodIssue) String
  | none => .error [requiredIssue "string" [key]]
  | some (.str s) =>
      if s.length < 1 then
        .error [⟨"too_small", "String must contain at least 1 character(s)", [key], none, none⟩]
      else .ok s
  | some w => .error [invalidTypeIssue "string" w.typeName [key]]

/-- `taskId: z.string().nullable()`: `null` is accepted, but the key must
be present (`.nullable()` does not admit a missing member). -/
def parseTaskIdField : Option Value → Except (List ZodIssue) (Option String)
  | none => .error [requiredIssue "string" ["taskId"]]
  | some .null => .ok none
  | some (.str s) => .ok (some s)
  | some w => .error [invalidTypeIssue "string" w.typeName ["taskId"]]

/-- `timestamp: z.string().datetime()`. -/
def parseTimestampField : Option Value → Except (List ZodIssue) String
  | none => .error [requiredIssue "string" ["timestamp"]]
  | some (.str s) =>
      if isDatetime s then .ok s
      else .error [⟨"invalid_string", "Invalid datetime", ["timestamp"], none, none⟩]
  | some w => .error [invalidTypeIssue "string" w.typeName ["timestamp"]]

/-- `status: z.nativeEnum(MemoryEntryStatus)`. -/
def parseStatusField : Option Value → Except (List ZodIssue) String
  | none => .error [requiredIssue "string" ["status"]]
  | some (.str s) =>
      if s ∈ memoryEntryStatuses then .ok s
      else .error [⟨"invalid_enum_value", "Invalid enum value, received " ++ s,
        ["status"], some s, none⟩]
  | some w => .error [invalidTypeIssue "string" w.typeName ["status"]]

/-- The `content` member, parsed by the schema `cp` (`z.record(z.unknown())`
for the envelope, a variant content schema after dispatch), with issues
re-rooted under `content`. -/
def parseContentWith (cp : ZParser) : Option Value → Except (List ZodIssue) Value
  | none => .error [requiredIssue "object" ["content"]]
  | some v => (cp v).mapError (withKeyPath "content")

/-- `metadata: z.record(z.unknown()).optional()`. -/
def parseMetadataField : Option Value → Except (List ZodIssue) (Option Value)
  | none => .ok none
  | some (.obj kvs) => .ok (some (.obj kvs))
  | some w => .error [invalidTypeIssue "object" w.typeName ["metadata"]]

/-- One element check of `embedding: z.array(z.number())`. -/
def parseNumElem1 (i : Nat) : Value → Except (List ZodIssue) JNum
  | .num n => .ok n
  | w => .error [invalidTypeIssue "number" w.typeName ["embedding", toString i]]

/-- Element loop of `embedding: z.array(z.number())`, collecting an
index-addressed issue for every non-number element. -/
def parseNumElems (i : Nat) : List Value → Except (List ZodIssue) (List JNum)
  | [] => .ok []
  | x :: rest =>
      (zipE (parseNumElem1 i x) (parseNumElems (i + 1) rest)).map (fun pr => pr.1 :: pr.2)

/-- `embedding: z.array(z.number()).optional()`. -/
def parseEmbeddingField : Option Value → Except (List ZodIssue) (Option (List JNum))
  | none => .ok none
  | some (.arr xs) => (parseNumElems 0 xs).map some
  | some w => .error [invalidTypeIssue "array" w.typeName ["embedding"]]

/-- One element check of `tags: z.array(z.string())`. -/
def parseStrElem1 (i : Nat) : Value → Except (List ZodIssue) String
  | .str s => .ok s
  | w => .error [invalidTypeIssue "string" w.typeName ["tags", toString i]]

/-- Element loop of `tags: z.array(z.string())`. -/
def parseStrElems (i : Nat) : List Value → Except (List ZodIssue) (List String)
  | [] => .ok []
  | x :: rest =>
      (zipE (parseStrElem1 i x) (parseStrElems (i + 1) rest)).map (fun pr => pr.1 :: pr.2)

/-- `tags: z.array(z.string()).optional()`. -/
def parseTagsField : Option Value → Except (List ZodIssue) (Option (List String))
  | none => .ok none
  | some (.arr xs) => (parseStrElems 0 xs).map some
  | some w => .error [invalidTypeIssue "array" w.typeName ["tags"]]

/-- Envelope parse shared by `MemoryEntrySchema` and the five variant
schemas (which `extend` it, overriding `type` and `content`): requires an
object, parses the eleven members in shape order, and collects every
member's issues together.  Modelled from the spec: "All violations across
these checks are collected and returned together — a single structural
call never reports only the first problem." -/
def parseEntryWith (check : String → Option ZodIssue) (cp : ZParser) (v : Value) :
    Except (List ZodIssue) MemoryEntry :=
  match v with
  | .obj kvs =>
      (zipE (parseIdField (lookupField "id" kvs))
        (zipE (parseTypeWith check (lookupField "type" kvs))
          (zipE (parseMin1String "project" (lookupField "project" kvs))
            (zipE (parseTaskIdField (lookupField "taskId" kvs))
              (zipE (parseMin1String "branch" (lookupField "branch" kvs))
                (zipE (parseTimestampField (lookupField "timestamp" kvs))
                  (zipE (parseStatusField (lookupField "status" kvs))
                    (zipE (parseContentWith cp (lookupField "content" kvs))
                      (zipE (parseMetadataField (lookupField "metadata" kvs))
                        (zipE (parseEmbeddingField (lookupField "embedding" kvs))
                          (parseTagsField (lookupField "tags" kvs)))))))))))).map
        (fun x => ⟨x.1, x.2.1, x.2.2.1, x.2.2.2.1, x.2.2.2.2.1, x.2.2.2.2.2.1,
          x.2.2.2.2.2.2.1, x.2.2.2.2.2.2.2.1, x.2.2.2.2.2.2.2.2.1,
          x.2.2.2.2.2.2.2.2.2.1, x.2.2.2.2.2.2.2.2.2.2⟩)
  | w => .error [invalidTypeIssue "object" w.typeName []]

/-- `MemoryEntrySchema.parse` (`types/index.ts`): the plain envelope, with
the native-enum `type` check and record-shaped `content`. -/
def parseMemoryEntrySchema (v : Value) : Except (List ZodIssue) MemoryEntry :=
  parseEntryWith checkNativeEnum zRecord v

/-- The member list of the JS object a parsed `MemoryEntry` denotes
(schema key order, absent optional members omitted, `null` for a null
`taskId`). -/
def MemoryEntry.entryFields (e : MemoryEntry) : List (String × Value) :=
  [("id", .str e.id), ("type", .str e.type), ("project", .str e.project),
    ("taskId", match e.taskId with | some s => .str s | none => .null),
    ("branch", .str e.branch), ("timestamp", .str e.timestamp),
    ("status", .str e.status), ("content", e.content)]
    ++ (match e.metadata with | some m => [("metadata", m)] | none => [])
    ++ (match e.embedding with
        | some ns => [("embedding", .arr (ns.map Value.num))] | none => [])
    ++ (match e.tags with
        | some ts => [("tags", .arr (ts.map Value.str))] | none => [])

/-- The JS object a parsed `MemoryEntry` denotes; this is the value a
validator output presents when fed back into a validator. -/
def MemoryEntry.toValue (e : MemoryEntry) : Value := .obj e.entryFields

/-- `BranchMetaContentSchema` (`types/index.ts`). -/
def branchMetaContent : ZParser := zObject [
  ⟨"purpose", false, zString⟩,
  ⟨"parentBranch", false, zString⟩,
  ⟨"childBranches", true, zArray zString⟩,
  ⟨"createdAt", false, zDatetime⟩,
  ⟨"mergeTarget", true, zDatetime⟩,
  ⟨"featureFlags", true, zArray zString⟩,
  ⟨"environment", true, zEnum ["development", "staging", "production"]⟩,
  ⟨"relatedBranches", true, zArray zString⟩]

/-- `MemoryEntryValidator.validate`: `MemoryEntrySchema.parse` inside a
try/catch that converts a thrown `ZodError` into a failure result. -/
def MemoryEntryValidator.validate (entry : Value) : ValidationResult MemoryEntry :=
  match parseMemoryEntrySchema entry with
  | .ok validated => VOk validated
  | .error issues => VErr (parseZodError issues)

/-- Try/catch wrapper shared by the five `switch` branches of
`validateByType`: a successful variant parse is a success, a thrown
`ZodError` becomes a failure via `parseZodError`. -/
def variantResult (r : Except (List ZodIssue) MemoryEntry) : ValidationResult MemoryEntry :=
  match r with
  | .ok validated => VOk validated
  | .error issues => VErr (parseZodError issues)

/-- `MemoryEntryValidator.validateByType`: the `switch` over
`entry.type`, parsing the entry against the matching variant schema and
returning a single `INVALID_TYPE` error on an unknown discriminant. -/
def MemoryEntryValidator.validateByType (entry : MemoryEntry) : ValidationResult MemoryEntry :=
  if entry.type = "TaskState" then
    variantResult (parseEntryWith (checkLiteral "TaskState") taskStateContent entry.toValue)
  else if entry.type = "CommitDelta" then
    variantResult (parseEntryWith (checkLiteral "CommitDelta") commitDeltaContent entry.toValue)
  else if entry.type = "ReasoningEntry" then
    variantResult
      (parseEntryWith (checkLiteral "ReasoningEntry") reasoningEntryContent entry.toValue)
  else if entry.type = "SummaryCheckpoint" then
    variantResult
      (parseEntryWith (checkLiteral "SummaryCheckpoint") summaryCheckpointContent entry.toValue)
  else if entry.type = "BranchMeta" then
    variantResult (parseEntryWith (checkLiteral "BranchMeta") branchMetaContent entry.toValue)
  else
    VErr [⟨"INVALID_TYPE", "Unknown memory entry type: " ++ entry.type, some ["type"], none⟩]

/-- `MemoryEntryValidator.validateTyped`: the base envelope parse,
returned as-is when it fails or carries no data, else the by-type parse
of its data. -/
def MemoryEntryValidator.validateTyped (entry : Value) : ValidationResult MemoryEntry :=
  match MemoryEntryValidator.validate entry with
  | ⟨true, some d, _⟩ => MemoryEntryValidator.validateByType d
  | r => r

/-- Character class of `PROJECT_NAME_REGEX = /^[a-zA-Z0-9_-]+$/`. -/
def isProjectChar (c : Char) : Bool := c.isAlphanum || c = '_' || c = '-'

/-- `PROJECT_NAME_REGEX.test(s)`. -/
def projectNameTest (s : String) : Bool := !s.data.isEmpty && s.data.all isProjectChar

/-- `ProjectValidator.validate`: length and format checks, all collected. -/
def ProjectValidator.validate (projectName : String) : ValidationResult String :=
  let errors : List ValidationError :=
    (if projectName.length < 1 then
      [⟨"TOO_SHORT", "Project name must be at least 1 character(s)", none, none⟩] else []) ++
    (if projectName.length > 100 then
      [⟨"TOO_LONG", "Project name must be at most 100 characters", none, none⟩] else []) ++
    (if projectNameTest projectName then [] else
      [⟨"INVALID_FORMAT",
        "Project name can only contain letters, numbers, underscores, and hyphens",
        none, none⟩])
  if errors.length > 0 then VErr errors else VOk projectName

/-- Character class of `BRANCH_NAME_REGEX = /^[a-zA-Z0-9/_-]+$/`. -/
def isBranchChar (c : Char) : Bool := c.isAlphanum || c = '/' || c = '_' || c = '-'

/-- `BRANCH_NAME_REGEX.test(s)`. -/
def branchNameTest (s : String) : Bool := !s.data.isEmpty && s.data.all isBranchChar

/-- `s.startsWith('/')`. -/
def headIsSlash (s : String) : Bool :=
  match s.data with
  | '/' :: _ => true
  | _ => false

/-- `s.endsWith('/')`. -/
def lastIsSlash (s : String) : Bool :=
  match s.data.getLast? with
  | some '/' => true
  | _ => false

/-- `s.includes('//')`. -/
def hasDoubleSlash : List Char → Bool
  | '/' :: '/' :: _ => true
  | _ :: rest => hasDoubleSlash rest
  | [] => false

/-- `BranchValidator.validate`: length, format, edge-slash and
double-slash checks, all collected. -/
def BranchValidator.validate (branchName : String) : ValidationResult String :=
  let errors : List ValidationError :=
    (if branchName.length < 1 then
      [⟨"TOO_SHORT", "Branch name must be at least 1 character(s)", none, none⟩] else []) ++
    (if branchName.length > 250 then
      [⟨"TOO_LONG", "Branch name must be at most 250 characters", none, none⟩] else []) ++
    (if branchNameTest branchName then [] else
      [⟨"INVALID_FORMAT", "Branch name contains invalid characters", none, none⟩]) ++
    (if headIsSlash branchName || lastIsSlash branchName then
      [⟨"INVALID_FORMAT", "Branch name cannot start or end with a slash", none, none⟩] else []) ++
    (if hasDoubleSlash branchName.data then
      [⟨"INVALID_FORMAT", "Branch name cannot contain consecutive slashes", none, none⟩] else [])
  if errors.length > 0 then VErr errors else VOk branchName

/-- `ContentSizeValidator.MAX_CONTENT_SIZE` (1 MB). -/
def maxContentSize : Nat := 1024 * 1024

/-- `ContentSizeValidator.MAX_STRING_LENGTH`. -/
def maxStringLength : Nat := 100000

/-- The `typeof content === 'string'` length check of
`ContentSizeValidator.validate`: fires only when the whole content value
is itself a string longer than 100k characters. -/
def stringLengthErrors : Value → List ValidationError
  | .str s =>
      if s.length > maxStringLength then
        [⟨"STRING_TOO_LONG", "String length (" ++ toString s.length ++
          ") exceeds maximum allowed length (" ++ toString maxStringLength ++ ")",
          none, none⟩]
      else []
  | _ => []

/-- `ContentSizeValidator.validate`: serializes the content, measures its
UTF-8 byte size against 1 MB, and — only when the content value is itself
a string — checks its character length against 100k. -/
def ContentSizeValidator.validate (content : Value) : ValidationResult Value :=
  let sizeInBytes := utf8Len (jsonStringify content)
  let errors : List ValidationError :=
    (if sizeInBytes > maxContentSize then
      [⟨"CONTENT_TOO_LARGE", "Content size (" ++ toString sizeInBytes ++
        " bytes) exceeds maximum allowed size (" ++ toString maxContentSize ++ " bytes)",
        none, none⟩] else []) ++
    stringLengthErrors content
  if errors.length > 0 then VErr errors else VOk content

/-- `EmbeddingValidator.SUPPORTED_DIMENSIONS`. -/
def supportedDimensions : List Nat := [384, 512, 768, 1024, 1536]

/-- One element passes the `typeof value !== 'number' || isNaN(value) ||
!isFinite(value)` check of the embedding loop. -/
def isValidEmbeddingElem : Value → Bool
  | .num n => !n.isNaN && n.isFinite
  | _ => false

/-- The index loop of `EmbeddingValidator.validate`, emitting one
index-addressed error per invalid element. -/
def embeddingElemErrors (i : Nat) : List Value → List ValidationError
  | [] => []
  | x :: rest =>
      (if isValidEmbeddingElem x then [] else
        [⟨"INVALID_VALUE", "Embedding value at index " ++ toString i ++
          " is not a valid number", some [toString i], none⟩]) ++
      embeddingElemErrors (i + 1) rest

/-- `EmbeddingValidator.validate`: emptiness, dimension and per-element
checks, all collected.  The input is the runtime array the aggregator
hands over (the `Array.isArray` guard of the source is discharged by the
list type of the embedding here). -/
def EmbeddingValidator.validate (embedding : List Value) : ValidationResult (List Value) :=
  let errors : List ValidationError :=
    (if embedding.length = 0 then
      [⟨"EMPTY_EMBEDDING", "Embedding cannot be empty", none, none⟩] else []) ++
    (if embedding.length ∈ supportedDimensions then [] else
      [⟨"INVALID_DIMENSION", "Embedding dimension (" ++ toString embedding.length ++
        ") is not supported. Supported dimensions: 384, 512, 768, 1024, 1536",
        none, none⟩]) ++
    embeddingElemErrors 0 embedding
  if errors.length > 0 then VErr errors else VOk embedding

/-- The errors pushed by the aggregator for one field validator outcome
(`if (!r.success) errors.push(...(r.errors || []))`). -/
def pushedErrors {α : Type} (r : ValidationResult α) : List ValidationError :=
  if r.success then [] else r.errors.getD []

/-- The merged error list of the collect-all phase: project name, branch
name, content size, and (when the entry carries one) embedding. -/
def phase2Errors (validatedEntry : MemoryEntry) : List ValidationError :=
  pushedErrors (ProjectValidator.validate validatedEntry.project) ++
  pushedErrors (BranchValidator.validate validatedEntry.branch) ++
  pushedErrors (ContentSizeValidator.validate validatedEntry.content) ++
  (match validatedEntry.embedding with
   | some ns => pushedErrors (EmbeddingValidator.validate (ns.map Value.num))
   | none => [])

/-- `UCPValidator.validateMemoryEntry`: phase 1 (structure and type
dispatch) returned as-is on failure, then the four field validators with
all their errors merged. -/
def UCPValidator.validateMemoryEntry (entry : Value) : ValidationResult MemoryEntry :=
  match MemoryEntryValidator.validateTyped entry with
  | ⟨true, some validatedEntry, _⟩ =>
      if (phase2Errors validatedEntry).length > 0 then VErr (phase2Errors validatedEntry)
      else VOk validatedEntry
  | r => r

/-! ### Basic lemmas about the parse combinators -/

theorem zipE_ok_iff {α β : Type} (a : Except (List ZodIssue) α)
    (b : Except (List ZodIssue) β) (c : α × β) :
    zipE a b = .ok c ↔ a = .ok c.1 ∧ b = .ok c.2 := by
  cases a <;> cases b <;> cases c <;> simp [zipE, Prod.ext_iff]

theorem exceptMap_ok_iff {α β : Type} (f : α → β) (r : Except (List ZodIssue) α) (y : β) :
    r.map f = .ok y ↔ ∃ x, r = .ok x ∧ f x = y := by
  cases r <;> simp [Except.map]

theorem exceptMapError_ok_iff {α : Type} (f : List ZodIssue → List ZodIssue)
    (r : Except (List ZodIssue) α) (y : α) :
    r.mapError f = .ok y ↔ r = .ok y := by
  cases r <;> simp [Except.mapError]

theorem zipE_error_left {α β : Type} (a : Except (List ZodIssue) α)
    (b : Except (List ZodIssue) β) (es : List ZodIssue) (h : a = .error es) :
    ∃ fs, zipE a b = .error fs ∧ es <+: fs := by
  subst h
  cases b with
  | ok bv => exact ⟨es, rfl, List.prefix_refl es⟩
  | error fs => exact ⟨es ++ fs, rfl, List.prefix_append es fs⟩

/-! ### Inversion lemmas for the envelope member parses -/

theorem parseIdField_ok_iff (o : Option Value) (s : String) :
    parseIdField o = .ok s ↔ o = some (.str s) ∧ isUUID s = true := by
  constructor
  · intro h
    cases o with
    | none => simp [parseIdField] at h
    | some v =>
      cases v with
      | str t =>
          by_cases hu : isUUID t = true
          · simp [parseIdField, hu] at h
            subst h
            exact ⟨rfl, hu⟩
          · simp [parseIdField, hu] at h
      | null => simp [parseIdField] at h
      | bool b => simp [parseIdField] at h
      | num n => simp [parseIdField] at h
      | arr xs => simp [parseIdField] at h
      | obj kvs => simp [parseIdField] at h
  · rintro ⟨rfl, hu⟩
    simp [parseIdField, hu]

theorem parseTypeWith_ok_iff (check : String → Option ZodIssue) (o : Option Value) (s : String) :
    parseTypeWith check o = .ok s ↔ o = some (.str s) ∧ check s = none := by
  constructor
  · intro h
    cases o with
    | none => simp [parseTypeWith] at h
    | some v =>
      cases v with
      | str t =>
          cases hc : check t with
          | none =>
              simp [parseTypeWith, hc] at h
              subst h
              exact ⟨rfl, hc⟩
          | some i => simp [parseTypeWith, hc] at h
      | null => simp [parseTypeWith] at h
      | bool b => simp [parseTypeWith] at h
      | num n => simp [parseTypeWith] at h
      | arr xs => simp [parseTypeWith] at h
      | obj kvs => simp [parseTypeWith] at h
  · rintro ⟨rfl, hc⟩
    simp [parseTypeWith, hc]

theorem parseMin1String_ok_iff (key : String) (o : Option Value) (s : String) :
    parseMin1String key o = .ok s ↔ o = some (.str s) ∧ ¬ s.length < 1 := by
  constructor
  · intro h
    cases o with
    | none => simp [parseMin1String] at h
    | some v =>
      cases v with
      | str t =>
          by_cases hl : t.length < 1
          · simp [parseMin1String, hl] at h
          · simp [parseMin1String, hl] at h
            subst h
            exact ⟨rfl, hl⟩
      | null => simp [parseMin1String] at h
      | bool b => simp [parseMin1String] at h
      | num n => simp [parseMin1String] at h
      | arr xs => simp [parseMin1String] at h
      | obj kvs => simp [parseMin1String] at h
  · rintro ⟨rfl, hl⟩
    simp [parseMin1String, hl]

theorem parseTaskIdField_ok_iff (o : Option Value) (t : Option String) :
    parseTaskIdField o = .ok t ↔
      (t = none ∧ o = some .null) ∨ (∃ s, t = some s ∧ o = some (.str s)) := by
  constructor
  · intro h
    cases o with
    | none => simp [parseTaskIdField] at h
    | some v =>
      cases v with
      | null =>
          simp [parseTaskIdField] at h
          exact Or.inl ⟨h.symm, rfl⟩
      | str s =>
          simp [parseTaskIdField] at h
          exact Or.inr ⟨s, h.symm, rfl⟩
      | bool b => simp [parseTaskIdField] at h
      | num n => simp [parseTaskIdField] at h
      | arr xs => simp [parseTaskIdField] at h
      | obj kvs => simp [parseTaskIdField] at h
  · rintro (⟨rfl, rfl⟩ | ⟨s, rfl, rfl⟩) <;> simp [parseTaskIdField]

theorem parseTimestampField_ok_iff (o : Option Value) (s : String) :
    parseTimestampField o = .ok s ↔ o = some (.str s) ∧ isDatetime s = true := by
  constructor
  · intro h
    cases o with
    | none => simp [parseTimestampField] at h
    | some v =>
      cases v with
      | str t =>
          by_cases hd : isDatetime t = true
          · simp [parseTimestampField, hd] at h
            subst h
            exact ⟨rfl, hd⟩
          · simp [parseTimestampField, hd] at h
      | null => simp [parseTimestampField] at h
      | bool b => simp [parseTimestampField] at h
      | num n => simp [parseTimestampField] at h
      | arr xs => simp [parseTimestampField] at h
      | obj kvs => simp [parseTimestampField] at h
  · rintro ⟨rfl, hd⟩
    simp [parseTimestampField, hd]

theorem parseStatusField_ok_iff (o : Option Value) (s : String) :
    parseStatusField o = .ok s ↔ o = some (.str s) ∧ s ∈ memoryEntryStatuses := by
  constructor
  · intro h
    cases o with
    | none => simp [parseStatusField] at h
    | some v =>
      cases v with
      | str t =>
          by_cases hm : t ∈ memoryEntryStatuses
          · simp [parseStatusField, hm] at h
            subst h
            exact ⟨rfl, hm⟩
          · simp [parseStatusField, hm] at h
      | null => simp [parseStatusField] at h
      | bool b => simp [parseStatusField] at h
      | num n => simp [parseStatusField] at h
      | arr xs => simp [parseStatusField] at h
      | obj kvs => simp [parseStatusField] at h
  · rintro ⟨rfl, hm⟩
    simp [parseStatusField, hm]

theorem parseContentWith_ok_iff (cp : ZParser) (o : Option Value) (c : Value) :
    parseContentWith cp o = .ok c ↔ ∃ v, o = some v ∧ cp v = .ok c := by
  cases o with
  | none => simp [parseContentWith]
  | some v => simp [parseContentWith, exceptMapError_ok_iff]

theorem parseMetadataField_ok_iff (o : Option Value) (m : Option Value) :
    parseMetadataField o = .ok m ↔
      (m = none ∧ o = none) ∨ (∃ kvs, m = some (.obj kvs) ∧ o = some (.obj kvs)) := by
  constructor
  · intro h
    cases o with
    | none =>
        simp [parseMetadataField] at h
        exact Or.inl ⟨h.symm, rfl⟩
    | some v =>
      cases v with
      | obj kvs =>
          simp [parseMetadataField] at h
          exact Or.inr ⟨kvs, h.symm, rfl⟩
      | null => simp [parseMetadataField] at h
      | bool b => simp [parseMetadataField] at h
      | num n => simp [parseMetadataField] at h
      | str s => simp [parseMetadataField] at h
      | arr xs => simp [parseMetadataField] at h
  · rintro (⟨rfl, rfl⟩ | ⟨kvs, rfl, rfl⟩) <;> simp [parseMetadataField]

theorem parseEmbeddingField_ok_iff (o : Option Value) (m : Option (List JNum)) :
    parseEmbeddingField o = .ok m ↔
      (m = none ∧ o = none) ∨
      (∃ xs ns, m = some ns ∧ o = some (.arr xs) ∧ parseNumElems 0 xs = .ok ns) := by
  constructor
  · intro h
    cases o with
    | none =>
        simp [parseEmbeddingField] at h
        exact Or.inl ⟨h.symm, rfl⟩
    | some v =>
      cases v with
      | arr xs =>
          simp [parseEmbeddingField, exceptMap_ok_iff] at h
          obtain ⟨ns, hns, rfl⟩ := h
          exact Or.inr ⟨xs, ns, rfl, rfl, hns⟩
      | null => simp [parseEmbeddingField] at h
      | bool b => simp [parseEmbeddingField] at h
      | num n => simp [parseEmbeddingField] at h
      | str s => simp [parseEmbeddingField] at h
      | obj kvs => simp [parseEmbeddingField] at h
  · rintro (⟨rfl, rfl⟩ | ⟨xs, ns, rfl, rfl, hns⟩) <;>
      simp [parseEmbeddingField, exceptMap_ok_iff]
    exact hns

theorem parseTagsField_ok_iff (o : Option Value) (m : Option (List String)) :
    parseTagsField o = .ok m ↔
      (m = none ∧ o = none) ∨
      (∃ xs ts, m = some ts ∧ o = some (.arr xs) ∧ parseStrElems 0 xs = .ok ts) := by
  constructor
  · intro h
    cases o with
    | none =>
        simp [parseTagsField] at h
        exact Or.inl ⟨h.symm, rfl⟩
    | some v =>
      cases v with
      | arr xs =>
          simp [parseTagsField, exceptMap_ok_iff] at h
          obtain ⟨ts, hts, rfl⟩ := h
          exact Or.inr ⟨xs, ts, rfl, rfl, hts⟩
      | null => simp [parseTagsField] at h
      | bool b => simp [parseTagsField] at h
      | num n => simp [parseTagsField] at h
      | str s => simp [parseTagsField] at h
      | obj kvs => simp [parseTagsField] at h
  · rintro (⟨rfl, rfl⟩ | ⟨xs, ts, rfl, rfl, hts⟩) <;>
      simp [parseTagsField, exceptMap_ok_iff]
    exact hts

/-- Re-parsing an embedding that the envelope parse produced: encoding the
numbers back as values parses to the same numbers. -/
theorem parseNumElems_map (i : Nat) (ns : List JNum) :
    parseNumElems i (ns.map Value.num) = .ok ns := by
  induction ns generalizing i with
  | nil => simp [parseNumElems]
  | cons n rest ih => simp [parseNumElems, parseNumElem1, ih, zipE, Except.map]

/-- Re-parsing a tag list that the envelope parse produced. -/
theorem parseStrElems_map (i : Nat) (ts : List String) :
    parseStrElems i (ts.map Value.str) = .ok ts := by
  induction ts generalizing i with
  | nil => simp [parseStrElems]
  | cons t rest ih => simp [parseStrElems, parseStrElem1, ih, zipE, Except.map]

/-- Full characterization of a successful envelope parse on an object. -/
theorem parseEntryWith_obj_ok_iff (check : String → Option ZodIssue) (cp : ZParser)
    (kvs : List (String × Value)) (e : MemoryEntry) :
    parseEntryWith check cp (.obj kvs) = .ok e ↔
      parseIdField (lookupField "id" kvs) = .ok e.id ∧
      parseTypeWith check (lookupField "type" kvs) = .ok e.type ∧
      parseMin1String "project" (lookupField "project" kvs) = .ok e.project ∧
      parseTaskIdField (lookupField "taskId" kvs) = .ok e.taskId ∧
      parseMin1String "branch" (lookupField "branch" kvs) = .ok e.branch ∧
      parseTimestampField (lookupField "timestamp" kvs) = .ok e.timestamp ∧
      parseStatusField (lookupField "status" kvs) = .ok e.status ∧
      parseContentWith cp (lookupField "content" kvs) = .ok e.content ∧
      parseMetadataField (lookupField "metadata" kvs) = .ok e.metadata ∧
      parseEmbeddingField (lookupField "embedding" kvs) = .ok e.embedding ∧
      parseTagsField (lookupField "tags" kvs) = .ok e.tags := by
  simp only [parseEntryWith, exceptMap_ok_iff, zipE_ok_iff]
  constructor
  · rintro ⟨x, hx, rfl⟩
    simpa using hx
  · intro h
    exact ⟨⟨e.id, e.type, e.project, e.taskId, e.branch, e.timestamp, e.status,
      e.content, e.metadata, e.embedding, e.tags⟩, by simpa using h, rfl⟩

/-- A successful envelope parse only happens on objects. -/
theorem parseEntryWith_ok_obj (check : String → Option ZodIssue) (cp : ZParser)
    (v : Value) (e : MemoryEntry) (h : parseEntryWith check cp v = .ok e) :
    ∃ kvs, v = .obj kvs := by
  cases v with
  | obj kvs => exact ⟨kvs, rfl⟩
  | null => simp [parseEntryWith] at h
  | bool b => simp [parseEntryWith] at h
  | num n => simp [parseEntryWith] at h
  | str s => simp [parseEntryWith] at h
  | arr xs => simp [parseEntryWith] at h

/-! ### Looking members up in the object denoted by a parsed entry -/

theorem lookup_entryFields_id (e : MemoryEntry) :
    lookupField "id" e.entryFields = some (.str e.id) := by
  rcases e with ⟨i, ty, pr, tk, br, ts, st, ct, md, emb, tg⟩
  cases md <;> cases emb <;> cases tg <;> simp [MemoryEntry.entryFields, lookupField]

theorem lookup_entryFields_type (e : MemoryEntry) :
    lookupField "type" e.entryFields = some (.str e.type) := by
  rcases e with ⟨i, ty, pr, tk, br, ts, st, ct, md, emb, tg⟩
  cases md <;> cases emb <;> cases tg <;> simp [MemoryEntry.entryFields, lookupField]

theorem lookup_entryFields_project (e : MemoryEntry) :
    lookupField "project" e.entryFields = some (.str e.project) := by
  rcases e with ⟨i, ty, pr, tk, br, ts, st, ct, md, emb, tg⟩
  cases md <;> cases emb <;> cases tg <;> simp [MemoryEntry.entryFields, lookupField]

theorem lookup_entryFields_taskId (e : MemoryEntry) :
    lookupField "taskId" e.entryFields =
      some (match e.taskId with | some s => .str s | none => .null) := by
  rcases e with ⟨i, ty, pr, tk, br, ts, st, ct, md, emb, tg⟩
  cases md <;> cases emb <;> cases tg <;> simp [MemoryEntry.entryFields, lookupField]

theorem lookup_entryFields_branch (e : MemoryEntry) :
    lookupField "branch" e.entryFields = some (.str e.branch) := by
  rcases e with ⟨i, ty, pr, tk, br, ts, st, ct, md, emb, tg⟩
  cases md <;> cases emb <;> cases tg <;> simp [MemoryEntry.entryFields, lookupField]

theorem lookup_entryFields_timestamp (e : MemoryEntry) :
    lookupField "timestamp" e.entryFields = some (.str e.timestamp) := by
  rcases e with ⟨i, ty, pr, tk, br, ts, st, ct, md, emb, tg⟩
  cases md <;> cases emb <;> cases tg <;> simp [MemoryEntry.entryFields, lookupField]

theorem lookup_entryFields_status (e : MemoryEntry) :
    lookupField "status" e.entryFields = some (.str e.status) := by
  rcases e with ⟨i, ty, pr, tk, br, ts, st, ct, md, emb, tg⟩
  cases md <;> cases emb <;> cases tg <;> simp [MemoryEntry.entryFields, lookupField]

theorem lookup_entryFields_content (e : MemoryEntry) :
    lookupField "content" e.entryFields = some e.content := by
  rcases e with ⟨i, ty, pr, tk, br, ts, st, ct, md, emb, tg⟩
  cases md <;> cases emb <;> cases tg <;> simp [MemoryEntry.entryFields, lookupField]

theorem lookup_entryFields_metadata (e : MemoryEntry) :
    lookupField "metadata" e.entryFields = e.metadata := by
  rcases e with ⟨i, ty, pr, tk, br, ts, st, ct, md, emb, tg⟩
  cases md <;> cases emb <;> cases tg <;> simp [MemoryEntry.entryFields, lookupField]

theorem lookup_entryFields_embedding (e : MemoryEntry) :
    lookupField "embedding" e.entryFields =
      e.embedding.map (fun ns => .arr (ns.map Value.num)) := by
  rcases e with ⟨i, ty, pr, tk, br, ts, st, ct, md, emb, tg⟩
  cases md <;> cases emb <;> cases tg <;> simp [MemoryEntry.entryFields, lookupField]

theorem lookup_entryFields_tags (e : MemoryEntry) :
    lookupField "tags" e.entryFields =
      e.tags.map (fun ts => .arr (ts.map Value.str)) := by
  rcases e with ⟨i, ty, pr, tk, br, ts, st, ct, md, emb, tg⟩
  cases md <;> cases emb <;> cases tg <;> simp [MemoryEntry.entryFields, lookupField]

/-- The envelope invariants a successful parse guarantees about its
output (used to show that re-validating an accepted entry accepts it
again unchanged). -/
def EntryFacts (e : MemoryEntry) : Prop :=
  isUUID e.id = true ∧
  ¬ e.project.length < 1 ∧
  ¬ e.branch.length < 1 ∧
  isDatetime e.timestamp = true ∧
  e.status ∈ memoryEntryStatuses ∧
  (e.metadata = none ∨ ∃ kvs, e.metadata = some (Value.obj kvs))

theorem entryFacts_of_parse (check : String → Option ZodIssue) (cp : ZParser)
    (v : Value) (e : MemoryEntry) (h : parseEntryWith check cp v = .ok e) :
    EntryFacts e ∧ check e.type = none ∧ ∃ cin, cp cin = .ok e.content := by
  obtain ⟨kvs, rfl⟩ := parseEntryWith_ok_obj _ _ _ _ h
  rw [parseEntryWith_obj_ok_iff] at h
  obtain ⟨hid, hty, hpr, htk, hbr, hts, hst, hct, hmd, hemb, htg⟩ := h
  rw [parseIdField_ok_iff] at hid
  rw [parseTypeWith_ok_iff] at hty
  rw [parseMin1String_ok_iff] at hpr hbr
  rw [parseTimestampField_ok_iff] at hts
  rw [parseStatusField_ok_iff] at hst
  rw [parseContentWith_ok_iff] at hct
  rw [parseMetadataField_ok_iff] at hmd
  refine ⟨⟨hid.2, hpr.2, hbr.2, hts.2, hst.2, ?_⟩, hty.2, ?_⟩
  · rcases hmd with ⟨h1, _⟩ | ⟨kvs₂, h1, _⟩
    · exact Or.inl h1
    · exact Or.inr ⟨kvs₂, h1⟩
  · obtain ⟨cv, _, hcv⟩ := hct
    exact ⟨cv, hcv⟩

/-- Re-validating the object denoted by an already-validated entry parses
back to the very same entry. -/
theorem parseEntryWith_rebuild (check : String → Option ZodIssue) (cp : ZParser)
    (e : MemoryEntry) (hf : EntryFacts e) (hty : check e.type = none)
    (hcp : cp e.content = .ok e.content) :
    parseEntryWith check cp e.toValue = .ok e := by
  obtain ⟨hid, hpr, hbr, hts, hst, hmd⟩ := hf
  rw [MemoryEntry.toValue, parseEntryWith_obj_ok_iff]
  refine ⟨?_, ?_, ?_, ?_, ?_, ?_, ?_, ?_, ?_, ?_, ?_⟩
  · rw [lookup_entryFields_id, parseIdField_ok_iff]
    exact ⟨rfl, hid⟩
  · rw [lookup_entryFields_type, parseTypeWith_ok_iff]
    exact ⟨rfl, hty⟩
  · rw [lookup_entryFields_project, parseMin1String_ok_iff]
    exact ⟨rfl, hpr⟩
  · rw [lookup_entryFields_taskId]
    cases htk : e.taskId with
    | none => simp [parseTaskIdField]
    | some s => simp [parseTaskIdField]
  · rw [lookup_entryFields_branch, parseMin1String_ok_iff]
    exact ⟨rfl, hbr⟩
  · rw [lookup_entryFields_timestamp, parseTimestampField_ok_iff]
    exact ⟨rfl, hts⟩
  · rw [lookup_entryFields_status, parseStatusField_ok_iff]
    exact ⟨rfl, hst⟩
  · rw [lookup_entryFields_content, parseContentWith_ok_iff]
    exact ⟨e.content, rfl, hcp⟩
  · rw [lookup_entryFields_metadata, parseMetadataField_ok_iff]
    rcases hmd with h1 | ⟨kvs, h1⟩
    · exact Or.inl ⟨h1.symm ▸ rfl, h1⟩
    · exact Or.inr ⟨kvs, h1.symm ▸ rfl, h1⟩
  · rw [lookup_entryFields_embedding]
    cases hemb : e.embedding with
    | none => simp [parseEmbeddingField]
    | some ns => simp [parseEmbeddingField, parseNumElems_map, Except.map]
  · rw [lookup_entryFields_tags]
    cases htg : e.tags with
    | none => simp [parseTagsField]
    | some ts => simp [parseTagsField, parseStrElems_map, Except.map]

/-! ### Idempotence of the content schemas -/

/-- A parser is idempotent when re-parsing any of its outputs succeeds and
returns that output unchanged. -/
def IdemP (p : ZParser) : Prop := ∀ v w, p v = .ok w → p w = .ok w

theorem lookupField_eq_none (k : String) (l : List (String × Value))
    (h : k ∉ l.map Prod.fst) : lookupField k l = none := by
  induction l with
  | nil => rfl
  | cons kv rest ih =>
      obtain ⟨k₁, v⟩ := kv
      simp only [List.map_cons, List.mem_cons] at h
      push_neg at h
      simp [lookupField, Ne.symm h.1, ih h.2]

theorem lookupField_cons_ne (k k₁ : String) (v : Value) (l : List (String × Value))
    (h : k₁ ≠ k) : lookupField k ((k₁, v) :: l) = lookupField k l := by
  simp [lookupField, h]

theorem zFields_keys_sub (fs : List FieldSpec) (kvs out : List (String × Value))
    (h : zFields fs kvs = .ok out) :
    ∀ p ∈ out, p.1 ∈ fs.map FieldSpec.key := by
  induction fs generalizing out with
  | nil =>
      simp [zFields] at h
      subst h
      simp
  | cons f rest ih =>
      rw [zFields, exceptMap_ok_iff] at h
      obtain ⟨⟨out₁, out₂⟩, hpr, rfl⟩ := h
      rw [zipE_ok_iff] at hpr
      obtain ⟨hhead, htail⟩ := hpr
      simp only at hhead htail
      intro p hp
      rcases List.mem_append.mp hp with hp1 | hp2
      · cases hl : lookupField f.key kvs with
        | none =>
            rw [hl] at hhead
            by_cases hopt : f.optional <;> simp [hopt] at hhead
            subst hhead
            simp at hp1
        | some v =>
            rw [hl] at hhead
            cases hpv : f.p v with
            | ok w =>
                simp [hpv] at hhead
                subst hhead
                simp at hp1
                simp [hp1]
            | error es =>
                simp [hpv] at hhead
      · simp only [List.map_cons, List.mem_cons]
        exact Or.inr (ih out₂ htail p hp2)

theorem zFields_congr (fs : List FieldSpec) (kvs₁ kvs₂ : List (String × Value))
    (h : ∀ f ∈ fs, lookupField f.key kvs₁ = lookupField f.key kvs₂) :
    zFields fs kvs₁ = zFields fs kvs₂ := by
  induction fs with
  | nil => rfl
  | cons f rest ih =>
      rw [zFields, zFields, h f (List.mem_cons_self f rest),
        ih (fun g hg => h g (List.mem_cons_of_mem f hg))]

theorem zFields_idem (fs : List FieldSpec) (kvs out : List (String × Value))
    (hidem : ∀ f ∈ fs, IdemP f.p) (hnd : (fs.map FieldSpec.key).Nodup)
    (h : zFields fs kvs = .ok out) : zFields fs out = .ok out := by
  induction fs generalizing kvs out with
  | nil =>
      simp [zFields] at h
      subst h
      rfl
  | cons f rest ih =>
      rw [zFields, exceptMap_ok_iff] at h
      obtain ⟨⟨out₁, out₂⟩, hpr, rfl⟩ := h
      rw [zipE_ok_iff] at hpr
      obtain ⟨hhead, htail⟩ := hpr
      simp only at hhead htail
      simp only [List.map_cons, List.nodup_cons] at hnd
      obtain ⟨hknot, hndr⟩ := hnd
      have hidr : ∀ g ∈ rest, IdemP g.p := fun g hg => hidem g (List.mem_cons_of_mem f hg)
      have htail₂ : zFields rest out₂ = .ok out₂ := ih kvs out₂ hidr hndr htail
      have hsub := zFields_keys_sub rest kvs out₂ htail
      cases hl : lookupField f.key kvs with
      | none =>
          rw [hl] at hhead
          by_cases hopt : f.optional <;> simp [hopt] at hhead
          subst hhead
          simp only [List.nil_append]
          have hout : lookupField f.key out₂ = none := by
            apply lookupField_eq_none
            intro hmem
            obtain ⟨p, hp, hpk⟩ := List.mem_map.mp hmem
            exact hknot (hpk ▸ hsub p hp)
          rw [zFields, hout]
          simp only [hopt, if_true]
          rw [htail₂]
          simp [zipE, Except.map]
      | some v =>
          rw [hl] at hhead
          cases hpv : f.p v with
          | ok w =>
              simp [hpv] at hhead
              subst hhead
              simp only [List.cons_append, List.nil_append]
              have hfw : f.p w = .ok w := hidem f (List.mem_cons_self f rest) v w hpv
              rw [zFields]
              have hlk : lookupField f.key ((f.key, w) :: out₂) = some w := by
                simp [lookupField]
              rw [hlk]
              simp only [hfw]
              have hcon : zFields rest ((f.key, w) :: out₂) = zFields rest out₂ := by
                apply zFields_congr
                intro g hg
                apply lookupField_cons_ne
                intro hkeq
                exact hknot (hkeq ▸ List.mem_map.mpr ⟨g, hg, rfl⟩)
              rw [hcon, htail₂]
              simp [zipE, Except.map]
          | error es =>
              simp [hpv] at hhead

theorem zObject_ok_obj (fs : List FieldSpec) (v w : Value) (h : zObject fs v = .ok w) :
    ∃ kvs, w = .obj kvs := by
  cases v with
  | obj kvs =>
      rw [zObject, exceptMap_ok_iff] at h
      obtain ⟨out, _, rfl⟩ := h
      exact ⟨out, rfl⟩
  | null => simp [zObject] at h
  | bool b => simp [zObject] at h
  | num n => simp [zObject] at h
  | str s => simp [zObject] at h
  | arr xs => simp [zObject] at h

theorem zObject_idem (fs : List FieldSpec) (hidem : ∀ f ∈ fs, IdemP f.p)
    (hnd : (fs.map FieldSpec.key).Nodup) : IdemP (zObject fs) := by
  intro v w h
  cases v with
  | obj kvs =>
      rw [zObject, exceptMap_ok_iff] at h
      obtain ⟨out, hout, rfl⟩ := h
      rw [zObject, exceptMap_ok_iff]
      exact ⟨out, zFields_idem fs kvs out hidem hnd hout, rfl⟩
  | null => simp [zObject] at h
  | bool b => simp [zObject] at h
  | num n => simp [zObject] at h
  | str s => simp [zObject] at h
  | arr xs => simp [zObject] at h

theorem zString_idem : IdemP zString := by
  intro v w h
  cases v <;> simp [zString] at h <;> subst h <;> simp [zString]

theorem zNumber_idem : IdemP zNumber := by
  intro v w h
  cases v <;> simp [zNumber] at h <;> subst h <;> simp [zNumber]

theorem zNumberRange_idem (lo hi : ℚ) : IdemP (zNumberRange lo hi) := by
  intro v w h
  cases v with
  | num n =>
      cases hblt : n.blt lo <;> cases hbgt : n.bgt hi <;>
        simp [zNumberRange, hblt, hbgt] at h <;> subst h <;>
        simp [zNumberRange, hblt, hbgt]
  | null => simp [zNumberRange] at h
  | bool b => simp [zNumberRange] at h
  | str s => simp [zNumberRange] at h
  | arr xs => simp [zNumberRange] at h
  | obj kvs => simp [zNumberRange] at h

theorem zDatetime_idem : IdemP zDatetime := by
  intro v w h
  cases v with
  | str s =>
      by_cases hd : isDatetime s = true <;> simp [zDatetime, hd] at h
      subst h
      simp [zDatetime, hd]
  | null => simp [zDatetime] at h
  | bool b => simp [zDatetime] at h
  | num n => simp [zDatetime] at h
  | arr xs => simp [zDatetime] at h
  | obj kvs => simp [zDatetime] at h

theorem zEnum_idem (vals : List String) : IdemP (zEnum vals) := by
  intro v w h
  cases v with
  | str s =>
      by_cases hm : s ∈ vals <;> simp [zEnum, hm] at h
      subst h
      simp [zEnum, hm]
  | null => simp [zEnum] at h
  | bool b => simp [zEnum] at h
  | num n => simp [zEnum] at h
  | arr xs => simp [zEnum] at h
  | obj kvs => simp [zEnum] at h

theorem zRecord_idem : IdemP zRecord := by
  intro v w h
  cases v <;> simp [zRecord] at h <;> subst h <;> simp [zRecord]

theorem zRecordNumberFields_out (kvs out : List (String × Value))
    (h : zRecordNumberFields kvs = .ok out) : out = kvs := by
  induction kvs generalizing out with
  | nil =>
      simp [zRecordNumberFields] at h
      exact h
  | cons kv rest ih =>
      obtain ⟨k, v⟩ := kv
      rw [zRecordNumberFields, exceptMap_ok_iff] at h
      obtain ⟨⟨out₁, out₂⟩, hpr, rfl⟩ := h
      rw [zipE_ok_iff] at hpr
      obtain ⟨hhead, htail⟩ := hpr
      simp only at hhead htail
      cases v with
      | num n =>
          simp [zRecordNumberField1] at hhead
          subst hhead
          simp [ih out₂ htail]
      | null => simp [zRecordNumberField1] at hhead
      | bool b => simp [zRecordNumberField1] at hhead
      | str s => simp [zRecordNumberField1] at hhead
      | arr xs => simp [zRecordNumberField1] at hhead
      | obj kvs₂ => simp [zRecordNumberField1] at hhead

theorem zRecordNumber_idem : IdemP zRecordNumber := by
  intro v w h
  cases v with
  | obj kvs =>
      rw [zRecordNumber, exceptMap_ok_iff] at h
      obtain ⟨out, hout, rfl⟩ := h
      have hv := zRecordNumberFields_out kvs out hout
      subst hv
      rw [zRecordNumber, exceptMap_ok_iff]
      exact ⟨out, hout, rfl⟩
  | null => simp [zRecordNumber] at h
  | bool b => simp [zRecordNumber] at h
  | num n => simp [zRecordNumber] at h
  | str s => simp [zRecordNumber] at h
  | arr xs => simp [zRecordNumber] at h

theorem zTupleNum2_idem : IdemP zTupleNum2 := by
  intro v w h
  cases v with
  | arr xs =>
      match xs with
      | [] => simp [zTupleNum2] at h
      | [a] => simp [zTupleNum2] at h
      | [a, b] =>
          cases a <;> cases b <;>
            simp [zTupleNum2, zNumber, zipE, withKeyPath, Except.mapError, Except.map] at h <;>
            subst h <;>
            simp [zTupleNum2, zNumber, zipE, withKeyPath, Except.mapError, Except.map]
      | a :: b :: c :: rest => simp [zTupleNum2] at h
  | null => simp [zTupleNum2] at h
  | bool b => simp [zTupleNum2] at h
  | num n => simp [zTupleNum2] at h
  | str s => simp [zTupleNum2] at h
  | obj kvs => simp [zTupleNum2] at h

theorem zArrayElems_idem (p : ZParser) (hp : IdemP p) (i : Nat) (xs ws : List Value)
    (h : zArrayElems p i xs = .ok ws) : zArrayElems p i ws = .ok ws := by
  induction xs generalizing i ws with
  | nil =>
      simp [zArrayElems] at h
      subst h
      rfl
  | cons x rest ih =>
      rw [zArrayElems, exceptMap_ok_iff] at h
      obtain ⟨⟨w₁, w₂⟩, hpr, rfl⟩ := h
      rw [zipE_ok_iff] at hpr
      obtain ⟨hhead, htail⟩ := hpr
      simp only at hhead htail
      rw [exceptMapError_ok_iff] at hhead
      rw [zArrayElems, exceptMap_ok_iff]
      refine ⟨(w₁, w₂), ?_, rfl⟩
      rw [zipE_ok_iff]
      exact ⟨by rw [exceptMapError_ok_iff]; exact hp x w₁ hhead, ih (i + 1) w₂ htail⟩

theorem zArray_idem (p : ZParser) (hp : IdemP p) : IdemP (zArray p) := by
  intro v w h
  cases v with
  | arr xs =>
      rw [zArray, exceptMap_ok_iff] at h
      obtain ⟨ws, hws, rfl⟩ := h
      rw [zArray, exceptMap_ok_iff]
      exact ⟨ws, zArrayElems_idem p hp 0 xs ws hws, rfl⟩
  | null => simp [zArray] at h
  | bool b => simp [zArray] at h
  | num n => simp [zArray] at h
  | str s => simp [zArray] at h
  | obj kvs => simp [zArray] at h

theorem taskStateContent_idem : IdemP taskStateContent := by
  apply zObject_idem
  · intro f hf
    simp [List.mem_cons] at hf
    rcases hf with h | h | h | h | h | h | h | h <;> subst h <;>
      first
        | exact zString_idem
        | exact zArray_idem _ zString_idem
        | exact zNumberRange_idem 0 100
        | exact zRecord_idem
  · decide

theorem commitAuthorSchema_idem : IdemP commitAuthorSchema := by
  apply zObject_idem
  · intro f hf
    simp [List.mem_cons] at hf
    rcases hf with h | h <;> subst h <;> exact zString_idem
  · decide

theorem commitFileSchema_idem : IdemP commitFileSchema := by
  apply zObject_idem
  · intro f hf
    simp [List.mem_cons] at hf
    rcases hf with h | h | h | h <;> subst h <;>
      first
        | exact zString_idem
        | exact zEnum_idem _
        | exact zNumber_idem
  · decide

theorem commitSemanticSchema_idem : IdemP commitSemanticSchema := by
  apply zObject_idem
  · intro f hf
    simp [List.mem_cons] at hf
    rcases hf with h | h | h | h <;> subst h <;> exact zArray_idem _ zString_idem
  · decide

theorem commitDeltaContent_idem : IdemP commitDeltaContent := by
  apply zObject_idem
  · intro f hf
    simp [List.mem_cons] at hf
    rcases hf with h | h | h | h | h <;> subst h <;>
      first
        | exact zString_idem
        | exact commitAuthorSchema_idem
        | exact zArray_idem _ commitFileSchema_idem
        | exact commitSemanticSchema_idem
  · decide

theorem codeRefSchema_idem : IdemP codeRefSchema := by
  apply zObject_idem
  · intro f hf
    simp [List.mem_cons] at hf
    rcases hf with h | h | h <;> subst h <;>
      first
        | exact zString_idem
        | exact zTupleNum2_idem
  · decide

theorem reasoningEntryContent_idem : IdemP reasoningEntryContent := by
  apply zObject_idem
  · intro f hf
    simp [List.mem_cons] at hf
    rcases hf with h | h | h | h | h | h | h <;> subst h <;>
      first
        | exact zString_idem
        | exact zArray_idem _ codeRefSchema_idem
        | exact zArray_idem _ zString_idem
  · decide

theorem periodSchema_idem : IdemP periodSchema := by
  apply zObject_idem
  · intro f hf
    simp [List.mem_cons] at hf
    rcases hf with h | h <;> subst h <;> exact zDatetime_idem
  · decide

theorem summaryCheckpointContent_idem : IdemP summaryCheckpointContent := by
  apply zObject_idem
  · intro f hf
    simp [List.mem_cons] at hf
    rcases hf with h | h | h | h | h | h | h <;> subst h <;>
      first
        | exact periodSchema_idem
        | exact zString_idem
        | exact zArray_idem _ zString_idem
        | exact zRecordNumber_idem
  · decide

theorem branchMetaContent_idem : IdemP branchMetaContent := by
  apply zObject_idem
  · intro f hf
    simp [List.mem_cons] at hf
    rcases hf with h | h | h | h | h | h | h | h <;> subst h <;>
      first
        | exact zString_idem
        | exact zArray_idem _ zString_idem
        | exact zDatetime_idem
        | exact zEnum_idem _
  · decide

/-! ### Shape of the validator results -/

theorem variantResult_ok_iff (r : Except (List ZodIssue) MemoryEntry) (e : MemoryEntry) :
    variantResult r = VOk e ↔ r = .ok e := by
  cases r <;> simp [variantResult, VOk, VErr]

theorem validate_ok_iff (v : Value) (e : MemoryEntry) :
    MemoryEntryValidator.validate v = VOk e ↔ parseMemoryEntrySchema v = .ok e := by
  cases h : parseMemoryEntrySchema v <;>
    simp [MemoryEntryValidator.validate, h, VOk, VErr]

theorem validate_shape (v : Value) :
    (∃ e, MemoryEntryValidator.validate v = VOk e) ∨
    (∃ es, MemoryEntryValidator.validate v = VErr es) := by
  cases h : parseMemoryEntrySchema v with
  | ok e => exact Or.inl ⟨e, by simp [MemoryEntryValidator.validate, h]⟩
  | error issues =>
      exact Or.inr ⟨parseZodError issues, by simp [MemoryEntryValidator.validate, h]⟩

theorem validateByType_shape (d : MemoryEntry) :
    (∃ e, MemoryEntryValidator.validateByType d = VOk e) ∨
    (∃ es, MemoryEntryValidator.validateByType d = VErr es) := by
  rw [MemoryEntryValidator.validateByType]
  split_ifs <;>
    first
      | (rename_i hvr
         cases hvr₂ : parseEntryWith (checkLiteral _) _ d.toValue with
         | ok e => exact Or.inl ⟨e, by simp [variantResult, hvr₂]⟩
         | error issues => exact Or.inr ⟨parseZodError issues, by simp [variantResult, hvr₂]⟩)
      | exact Or.inr ⟨_, rfl⟩

theorem validateTyped_ok_iff (v : Value) (e : MemoryEntry) :
    MemoryEntryValidator.validateTyped v = VOk e ↔
      ∃ d, MemoryEntryValidator.validate v = VOk d ∧
        MemoryEntryValidator.validateByType d = VOk e := by
  constructor
  · intro h
    rcases validate_shape v with ⟨d, hd⟩ | ⟨es, hes⟩
    · refine ⟨d, hd, ?_⟩
      rw [MemoryEntryValidator.validateTyped, hd] at h
      exact h
    · rw [MemoryEntryValidator.validateTyped, hes] at h
      simp [VErr, VOk] at h
  · rintro ⟨d, hd, hbt⟩
    rw [MemoryEntryValidator.validateTyped, hd]
    exact hbt

theorem validateTyped_shape (v : Value) :
    (∃ e, MemoryEntryValidator.validateTyped v = VOk e) ∨
    (∃ es, MemoryEntryValidator.validateTyped v = VErr es) := by
  rcases validate_shape v with ⟨d, hd⟩ | ⟨es, hes⟩
  · rw [MemoryEntryValidator.validateTyped, hd]
    exact validateByType_shape d
  · rw [MemoryEntryValidator.validateTyped, hes]
    exact Or.inr ⟨es, rfl⟩

theorem validateMemoryEntry_of_ok (v : Value) (d : MemoryEntry)
    (h : MemoryEntryValidator.validateTyped v = VOk d) :
    UCPValidator.validateMemoryEntry v =
      (if (phase2Errors d).length > 0 then VErr (phase2Errors d) else VOk d) := by
  rw [UCPValidator.validateMemoryEntry, h]
  rfl

theorem validateMemoryEntry_of_err (v : Value) (es : List ValidationError)
    (h : MemoryEntryValidator.validateTyped v = VErr es) :
    UCPValidator.validateMemoryEntry v = VErr es := by
  rw [UCPValidator.validateMemoryEntry, h]
  rfl

theorem validateMemoryEntry_ok_iff (v : Value) (d : MemoryEntry) :
    UCPValidator.validateMemoryEntry v = VOk d ↔
      MemoryEntryValidator.validateTyped v = VOk d ∧ phase2Errors d = [] := by
  constructor
  · intro h
    rcases validateTyped_shape v with ⟨e, he⟩ | ⟨es, hes⟩
    · rw [validateMemoryEntry_of_ok v e he] at h
      by_cases hl : (phase2Errors e).length > 0
      · rw [if_pos hl] at h
        simp [VErr, VOk] at h
      · rw [if_neg hl] at h
        simp [VOk] at h
        simp at hl
        subst h
        exact ⟨he, hl⟩
    · rw [validateMemoryEntry_of_err v es hes] at h
      simp [VErr, VOk] at h
  · rintro ⟨h1, h2⟩
    rw [validateMemoryEntry_of_ok v d h1, h2]
    simp

theorem validateMemoryEntry_shape (v : Value) :
    (∃ e, UCPValidator.validateMemoryEntry v = VOk e) ∨
    (∃ es, UCPValidator.validateMemoryEntry v = VErr es) := by
  rcases validateTyped_shape v with ⟨e, he⟩ | ⟨es, hes⟩
  · rw [validateMemoryEntry_of_ok v e he]
    by_cases hl : (phase2Errors e).length > 0
    · rw [if_pos hl]
      exact Or.inr ⟨phase2Errors e, rfl⟩
    · rw [if_neg hl]
      exact Or.inl ⟨e, rfl⟩
  · rw [validateMemoryEntry_of_err v es hes]
    exact Or.inr ⟨es, rfl⟩

theorem validateByType_ok_cases (d e : MemoryEntry)
    (h : MemoryEntryValidator.validateByType d = VOk e) :
    (d.type = "TaskState" ∧
      parseEntryWith (checkLiteral "TaskState") taskStateContent d.toValue = .ok e) ∨
    (d.type = "CommitDelta" ∧
      parseEntryWith (checkLiteral "CommitDelta") commitDeltaContent d.toValue = .ok e) ∨
    (d.type = "ReasoningEntry" ∧
      parseEntryWith (checkLiteral "ReasoningEntry") reasoningEntryContent d.toValue = .ok e) ∨
    (d.type = "SummaryCheckpoint" ∧
      parseEntryWith (checkLiteral "SummaryCheckpoint") summaryCheckpointContent d.toValue
        = .ok e) ∨
    (d.type = "BranchMeta" ∧
      parseEntryWith (checkLiteral "BranchMeta") branchMetaContent d.toValue = .ok e) := by
  rw [MemoryEntryValidator.validateByType] at h
  split_ifs at h with h1 h2 h3 h4 h5
  · exact Or.inl ⟨h1, (variantResult_ok_iff _ _).mp h⟩
  · exact Or.inr (Or.inl ⟨h2, (variantResult_ok_iff _ _).mp h⟩)
  · exact Or.inr (Or.inr (Or.inl ⟨h3, (variantResult_ok_iff _ _).mp h⟩))
  · exact Or.inr (Or.inr (Or.inr (Or.inl ⟨h4, (variantResult_ok_iff _ _).mp h⟩)))
  · exact Or.inr (Or.inr (Or.inr (Or.inr ⟨h5, (variantResult_ok_iff _ _).mp h⟩)))
  · simp [VErr, VOk] at h

/-- A successful variant parse is stable: the parsed entry re-parses under
both the plain envelope schema and its own variant schema, unchanged. -/
theorem roundtrip_variant (lit : String) (cp : ZParser) (hlit : lit ∈ memoryEntryTypes)
    (hcpI : IdemP cp) (hcpO : ∀ v w, cp v = .ok w → ∃ kvs, w = .obj kvs)
    (d e : MemoryEntry) (hd : parseEntryWith (checkLiteral lit) cp d.toValue = .ok e) :
    parseMemoryEntrySchema e.toValue = .ok e ∧
    parseEntryWith (checkLiteral lit) cp e.toValue = .ok e ∧ e.type = lit := by
  obtain ⟨hf, hty, cin, hcin⟩ := entryFacts_of_parse _ _ _ _ hd
  have htyeq : e.type = lit := by
    by_cases hq : e.type = lit
    · exact hq
    · simp [checkLiteral, hq] at hty
  have hcpc : cp e.content = .ok e.content := hcpI cin e.content hcin
  have hobj : ∃ kvs, e.content = .obj kvs := hcpO cin e.content hcin
  refine ⟨?_, ?_, htyeq⟩
  · apply parseEntryWith_rebuild _ _ _ hf
    · simp [checkNativeEnum, htyeq, hlit]
    · obtain ⟨kvs, hk⟩ := hobj
      rw [hk]
      simp [zRecord]
  · exact parseEntryWith_rebuild _ _ _ hf hty hcpc

theorem taskStateContent_obj (v w : Value) (h : taskStateContent v = .ok w) :
    ∃ kvs, w = .obj kvs := zObject_ok_obj _ v w h

theorem commitDeltaContent_obj (v w : Value) (h : commitDeltaContent v = .ok w) :
    ∃ kvs, w = .obj kvs := zObject_ok_obj _ v w h

theorem reasoningEntryContent_obj (v w : Value) (h : reasoningEntryContent v = .ok w) :
    ∃ kvs, w = .obj kvs := zObject_ok_obj _ v w h

theorem summaryCheckpointContent_obj (v w : Value) (h : summaryCheckpointContent v = .ok w) :
    ∃ kvs, w = .obj kvs := zObject_ok_obj _ v w h

theorem branchMetaContent_obj (v w : Value) (h : branchMetaContent v = .ok w) :
    ∃ kvs, w = .obj kvs := zObject_ok_obj _ v w h

/-- Phase 1 round-trip: re-validating the object denoted by a typed,
accepted entry accepts it again, unchanged. -/
theorem validateTyped_roundtrip (v : Value) (e : MemoryEntry)
    (h : MemoryEntryValidator.validateTyped v = VOk e) :
    MemoryEntryValidator.validateTyped e.toValue = VOk e := by
  rw [validateTyped_ok_iff] at h
  obtain ⟨d, _, hbt⟩ := h
  have hcases := validateByType_ok_cases d e hbt
  rw [validateTyped_ok_iff]
  rcases hcases with ⟨hty, hp⟩ | ⟨hty, hp⟩ | ⟨hty, hp⟩ | ⟨hty, hp⟩ | ⟨hty, hp⟩
  · obtain ⟨henv, hvar, htye⟩ := roundtrip_variant "TaskState" taskStateContent
      (by simp [memoryEntryTypes]) taskStateContent_idem taskStateContent_obj d e hp
    refine ⟨e, (validate_ok_iff _ _).mpr henv, ?_⟩
    rw [MemoryEntryValidator.validateByType]
    simp only [htye, if_pos]
    exact (variantResult_ok_iff _ _).mpr hvar
  · obtain ⟨henv, hvar, htye⟩ := roundtrip_variant "CommitDelta" commitDeltaContent
      (by simp [memoryEntryTypes]) commitDeltaContent_idem commitDeltaContent_obj d e hp
    refine ⟨e, (validate_ok_iff _ _).mpr henv, ?_⟩
    rw [MemoryEntryValidator.validateByType]
    rw [if_neg (by simp [htye]), if_pos htye]
    exact (variantResult_ok_iff _ _).mpr hvar
  · obtain ⟨henv, hvar, htye⟩ := roundtrip_variant "ReasoningEntry" reasoningEntryContent
      (by simp [memoryEntryTypes]) reasoningEntryContent_idem reasoningEntryContent_obj d e hp
    refine ⟨e, (validate_ok_iff _ _).mpr henv, ?_⟩
    rw [MemoryEntryValidator.validateByType]
    rw [if_neg (by simp [htye]), if_neg (by simp [htye]), if_pos htye]
    exact (variantResult_ok_iff _ _).mpr hvar
  · obtain ⟨henv, hvar, htye⟩ := roundtrip_variant "SummaryCheckpoint" summaryCheckpointContent
      (by simp [memoryEntryTypes]) summaryCheckpointContent_idem summaryCheckpointContent_obj
      d e hp
    refine ⟨e, (validate_ok_iff _ _).mpr henv, ?_⟩
    rw [MemoryEntryValidator.validateByType]
    rw [if_neg (by simp [htye]), if_neg (by simp [htye]), if_neg (by simp [htye]), if_pos htye]
    exact (variantResult_ok_iff _ _).mpr hvar
  · obtain ⟨henv, hvar, htye⟩ := roundtrip_variant "BranchMeta" branchMetaContent
      (by simp [memoryEntryTypes]) branchMetaContent_idem branchMetaContent_obj d e hp
    refine ⟨e, (validate_ok_iff _ _).mpr henv, ?_⟩
    rw [MemoryEntryValidator.validateByType]
    rw [if_neg (by simp [htye]), if_neg (by simp [htye]), if_neg (by simp [htye]),
      if_neg (by simp [htye]), if_pos htye]
    exact (variantResult_ok_iff _ _).mpr hvar

/-! ### Failed parses always carry at least one issue -/

/-- A parser never fails with an empty issue list. -/
def NeverNilP (p : ZParser) : Prop := ∀ v es, p v = .error es → es ≠ []

theorem withKeyPath_ne_nil (k : String) (es : List ZodIssue) (h : es ≠ []) :
    withKeyPath k es ≠ [] := by
  cases es with
  | nil => exact absurd rfl h
  | cons a rest => simp [withKeyPath]

theorem zipE_nel {α β : Type} (a : Except (List ZodIssue) α) (b : Except (List ZodIssue) β)
    (ha : ∀ es, a = .error es → es ≠ []) (hb : ∀ es, b = .error es → es ≠ [])
    (es : List ZodIssue) (h : zipE a b = .error es) : es ≠ [] := by
  cases a with
  | ok av =>
      cases b with
      | ok bv => simp [zipE] at h
      | error bs =>
          simp [zipE] at h
          exact h ▸ hb bs rfl
  | error as =>
      cases b with
      | ok bv =>
          simp [zipE] at h
          exact h ▸ ha as rfl
      | error bs =>
          simp [zipE] at h
          subst h
          intro hnil
          exact ha as rfl (List.append_eq_nil.mp hnil).1

theorem exceptMap_error_iff {α β : Type} (f : α → β) (r : Except (List ZodIssue) α)
    (es : List ZodIssue) : r.map f = .error es ↔ r = .error es := by
  cases r <;> simp [Except.map]

theorem exceptMapError_error_iff {α : Type} (f : List ZodIssue → List ZodIssue)
    (r : Except (List ZodIssue) α) (es : List ZodIssue) :
    r.mapError f = .error es ↔ ∃ fs, r = .error fs ∧ f fs = es := by
  cases r <;> simp [Except.mapError]

theorem zString_nel : NeverNilP zString := by
  intro v es h
  cases v <;> simp [zString] at h <;> (subst h; simp)

theorem zNumber_nel : NeverNilP zNumber := by
  intro v es h
  cases v <;> simp [zNumber] at h <;> (subst h; simp)

theorem zNumberRange_nel (lo hi : ℚ) : NeverNilP (zNumberRange lo hi) := by
  intro v es h
  cases v with
  | num n =>
      cases hblt : n.blt lo <;> cases hbgt : n.bgt hi <;>
        simp [zNumberRange, hblt, hbgt] at h <;> (subst h; simp)
  | null => simp [zNumberRange] at h; subst h; simp
  | bool b => simp [zNumberRange] at h; subst h; simp
  | str s => simp [zNumberRange] at h; subst h; simp
  | arr xs => simp [zNumberRange] at h; subst h; simp
  | obj kvs => simp [zNumberRange] at h; subst h; simp

theorem zDatetime_nel : NeverNilP zDatetime := by
  intro v es h
  cases v with
  | str s =>
      by_cases hd : isDatetime s = true <;> simp [zDatetime, hd] at h <;> (subst h; simp)
  | null => simp [zDatetime] at h; subst h; simp
  | bool b => simp [zDatetime] at h; subst h; simp
  | num n => simp [zDatetime] at h; subst h; simp
  | arr xs => simp [zDatetime] at h; subst h; simp
  | obj kvs => simp [zDatetime] at h; subst h; simp

theorem zEnum_nel (vals : List String) : NeverNilP (zEnum vals) := by
  intro v es h
  cases v with
  | str s =>
      by_cases hm : s ∈ vals <;> simp [zEnum, hm] at h <;> (subst h; simp)
  | null => simp [zEnum] at h; subst h; simp
  | bool b => simp [zEnum] at h; subst h; simp
  | num n => simp [zEnum] at h; subst h; simp
  | arr xs => simp [zEnum] at h; subst h; simp
  | obj kvs => simp [zEnum] at h; subst h; simp

theorem zRecord_nel : NeverNilP zRecord := by
  intro v es h
  cases v <;> simp [zRecord] at h <;> (subst h; simp)

theorem zRecordNumberFields_nel (kvs : List (String × Value)) (es : List ZodIssue)
    (h : zRecordNumberFields kvs = .error es) : es ≠ [] := by
  induction kvs generalizing es with
  | nil => simp [zRecordNumberFields] at h
  | cons kv rest ih =>
      obtain ⟨k, v⟩ := kv
      rw [zRecordNumberFields, exceptMap_error_iff] at h
      refine zipE_nel _ _ ?_ ?_ es h
      · intro fs hfs
        cases v <;> simp [zRecordNumberField1] at hfs <;> (subst hfs; simp)
      · intro fs hfs
        exact ih fs hfs

theorem zRecordNumber_nel : NeverNilP zRecordNumber := by
  intro v es h
  cases v with
  | obj kvs =>
      rw [zRecordNumber, exceptMap_error_iff] at h
      exact zRecordNumberFields_nel kvs es h
  | null => simp [zRecordNumber] at h; subst h; simp
  | bool b => simp [zRecordNumber] at h; subst h; simp
  | num n => simp [zRecordNumber] at h; subst h; simp
  | str s => simp [zRecordNumber] at h; subst h; simp
  | arr xs => simp [zRecordNumber] at h; subst h; simp

theorem zArrayElems_nel (p : ZParser) (hp : NeverNilP p) (i : Nat) (xs : List Value)
    (es : List ZodIssue) (h : zArrayElems p i xs = .error es) : es ≠ [] := by
  induction xs generalizing i es with
  | nil => simp [zArrayElems] at h
  | cons x rest ih =>
      rw [zArrayElems, exceptMap_error_iff] at h
      refine zipE_nel _ _ ?_ ?_ es h
      · intro fs hfs
        rw [exceptMapError_error_iff] at hfs
        obtain ⟨gs, hgs, rfl⟩ := hfs
        exact withKeyPath_ne_nil _ gs (hp x gs hgs)
      · intro fs hfs
        exact ih (i + 1) fs hfs

theorem zArray_nel (p : ZParser) (hp : NeverNilP p) : NeverNilP (zArray p) := by
  intro v es h
  cases v with
  | arr xs =>
      rw [zArray, exceptMap_error_iff] at h
      exact zArrayElems_nel p hp 0 xs es h
  | null => simp [zArray] at h; subst h; simp
  | bool b => simp [zArray] at h; subst h; simp
  | num n => simp [zArray] at h; subst h; simp
  | str s => simp [zArray] at h; subst h; simp
  | obj kvs => simp [zArray] at h; subst h; simp

theorem zTupleNum2_nel : NeverNilP zTupleNum2 := by
  intro v es h
  cases v with
  | arr xs =>
      match xs with
      | [] => simp [zTupleNum2] at h; subst h; simp
      | [a] => simp [zTupleNum2] at h; subst h; simp
      | [a, b] =>
          rw [zTupleNum2, exceptMap_error_iff] at h
          refine zipE_nel _ _ ?_ ?_ es h
          · intro fs hfs
            rw [exceptMapError_error_iff] at hfs
            obtain ⟨gs, hgs, rfl⟩ := hfs
            refine withKeyPath_ne_nil _ gs ?_
            cases a <;> simp [zNumber] at hgs <;> (subst hgs; simp)
          · intro fs hfs
            rw [exceptMapError_error_iff] at hfs
            obtain ⟨gs, hgs, rfl⟩ := hfs
            refine withKeyPath_ne_nil _ gs ?_
            cases b <;> simp [zNumber] at hgs <;> (subst hgs; simp)
      | a :: b :: c :: rest => simp [zTupleNum2] at h; subst h; simp
  | null => simp [zTupleNum2] at h; subst h; simp
  | bool b => simp [zTupleNum2] at h; subst h; simp
  | num n => simp [zTupleNum2] at h; subst h; simp
  | str s => simp [zTupleNum2] at h; subst h; simp
  | obj kvs => simp [zTupleNum2] at h; subst h; simp

theorem zFields_nel (fs : List FieldSpec) (hps : ∀ f ∈ fs, NeverNilP f.p)
    (kvs : List (String × Value)) (es : List ZodIssue)
    (h : zFields fs kvs = .error es) : es ≠ [] := by
  induction fs generalizing es with
  | nil => simp [zFields] at h
  | cons f rest ih =>
      rw [zFields, exceptMap_error_iff] at h
      refine zipE_nel _ _ ?_ ?_ es h
      · intro gs hgs
        cases hl : lookupField f.key kvs with
        | none =>
            rw [hl] at hgs
            by_cases hopt : f.optional <;> simp [hopt] at hgs <;> (subst hgs; simp)
        | some v =>
            rw [hl] at hgs
            cases hpv : f.p v with
            | ok w => simp [hpv] at hgs
            | error gs₂ =>
                simp [hpv] at hgs
                subst hgs
                exact withKeyPath_ne_nil _ gs₂
                  (hps f (List.mem_cons_self f rest) v gs₂ hpv)
      · intro gs hgs
        exact ih (fun g hg => hps g (List.mem_cons_of_mem f hg)) gs hgs

theorem zObject_nel (fs : List FieldSpec) (hps : ∀ f ∈ fs, NeverNilP f.p) :
    NeverNilP (zObject fs) := by
  intro v es h
  cases v with
  | obj kvs =>
      rw [zObject, exceptMap_error_iff] at h
      exact zFields_nel fs hps kvs es h
  | null => simp [zObject] at h; subst h; simp
  | bool b => simp [zObject] at h; subst h; simp
  | num n => simp [zObject] at h; subst h; simp
  | str s => simp [zObject] at h; subst h; simp
  | arr xs => simp [zObject] at h; subst h; simp

theorem parseIdField_nel (o : Option Value) (es : List ZodIssue)
    (h : parseIdField o = .error es) : es ≠ [] := by
  cases o with
  | none => simp [parseIdField] at h; subst h; simp
  | some v =>
    cases v with
    | str t =>
        by_cases hu : isUUID t = true <;> simp [parseIdField, hu] at h <;> (subst h; simp)
    | null => simp [parseIdField] at h; subst h; simp
    | bool b => simp [parseIdField] at h; subst h; simp
    | num n => simp [parseIdField] at h; subst h; simp
    | arr xs => simp [parseIdField] at h; subst h; simp
    | obj kvs => simp [parseIdField] at h; subst h; simp

theorem parseTypeWith_nel (check : String → Option ZodIssue) (o : Option Value)
    (es : List ZodIssue) (h : parseTypeWith check o = .error es) : es ≠ [] := by
  cases o with
  | none => simp [parseTypeWith] at h; subst h; simp
  | some v =>
    cases v with
    | str t =>
        cases hc : check t with
        | none => simp [parseTypeWith, hc] at h
        | some i => simp [parseTypeWith, hc] at h; subst h; simp
    | null => simp [parseTypeWith] at h; subst h; simp
    | bool b => simp [parseTypeWith] at h; subst h; simp
    | num n => simp [parseTypeWith] at h; subst h; simp
    | arr xs => simp [parseTypeWith] at h; subst h; simp
    | obj kvs => simp [parseTypeWith] at h; subst h; simp

theorem parseMin1String_nel (key : String) (o : Option Value) (es : List ZodIssue)
    (h : parseMin1String key o = .error es) : es ≠ [] := by
  cases o with
  | none => simp [parseMin1String] at h; subst h; simp
  | some v =>
    cases v with
    | str t =>
        by_cases hl : t.length < 1 <;> simp [parseMin1String, hl] at h <;> (subst h; simp)
    | null => simp [parseMin1String] at h; subst h; simp
    | bool b => simp [parseMin1String] at h; subst h; simp
    | num n => simp [parseMin1String] at h; subst h; simp
    | arr xs => simp [parseMin1String] at h; subst h; simp
    | obj kvs => simp [parseMin1String] at h; subst h; simp

theorem parseTaskIdField_nel (o : Option Value) (es : List ZodIssue)
    (h : parseTaskIdField o = .error es) : es ≠ [] := by
  cases o with
  | none => simp [parseTaskIdField] at h; subst h; simp
  | some v =>
    cases v with
    | str t => simp [parseTaskIdField] at h
    | null => simp [parseTaskIdField] at h
    | bool b => simp [parseTaskIdField] at h; subst h; simp
    | num n => simp [parseTaskIdField] at h; subst h; simp
    | arr xs => simp [parseTaskIdField] at h; subst h; simp
    | obj kvs => simp [parseTaskIdField] at h; subst h; simp

theorem parseTimestampField_nel (o : Option Value) (es : List ZodIssue)
    (h : parseTimestampField o = .error es) : es ≠ [] := by
  cases o with
  | none => simp [parseTimestampField] at h; subst h; simp
  | some v =>
    cases v with
    | str t =>
        by_cases hd : isDatetime t = true <;> simp [parseTimestampField, hd] at h <;>
          (subst h; simp)
    | null => simp [parseTimestampField] at h; subst h; simp
    | bool b => simp [parseTimestampField] at h; subst h; simp
    | num n => simp [parseTimestampField] at h; subst h; simp
    | arr xs => simp [parseTimestampField] at h; subst h; simp
    | obj kvs => simp [parseTimestampField] at h; subst h; simp

theorem parseStatusField_nel (o : Option Value) (es : List ZodIssue)
    (h : parseStatusField o = .error es) : es ≠ [] := by
  cases o with
  | none => simp [parseStatusField] at h; subst h; simp
  | some v =>
    cases v with
    | str t =>
        by_cases hm : t ∈ memoryEntryStatuses <;> simp [parseStatusField, hm] at h <;>
          (subst h; simp)
    | null => simp [parseStatusField] at h; subst h; simp
    | bool b => simp [parseStatusField] at h; subst h; simp
    | num n => simp [parseStatusField] at h; subst h; simp
    | arr xs => simp [parseStatusField] at h; subst h; simp
    | obj kvs => simp [parseStatusField] at h; subst h; simp

theorem parseContentWith_nel (cp : ZParser) (hcp : NeverNilP cp) (o : Option Value)
    (es : List ZodIssue) (h : parseContentWith cp o = .error es) : es ≠ [] := by
  cases o with
  | none => simp [parseContentWith] at h; subst h; simp
  | some v =>
      rw [parseContentWith, exceptMapError_error_iff] at h
      obtain ⟨fs, hfs, rfl⟩ := h
      exact withKeyPath_ne_nil _ fs (hcp v fs hfs)

theorem parseMetadataField_nel (o : Option Value) (es : List ZodIssue)
    (h : parseMetadataField o = .error es) : es ≠ [] := by
  cases o with
  | none => simp [parseMetadataField] at h
  | some v =>
    cases v with
    | obj kvs => simp [parseMetadataField] at h
    | null => simp [parseMetadataField] at h; subst h; simp
    | bool b => simp [parseMetadataField] at h; subst h; simp
    | num n => simp [parseMetadataField] at h; subst h; simp
    | str s => simp [parseMetadataField] at h; subst h; simp
    | arr xs => simp [parseMetadataField] at h; subst h; simp

theorem parseNumElems_nel (i : Nat) (xs : List Value) (es : List ZodIssue)
    (h : parseNumElems i xs = .error es) : es ≠ [] := by
  induction xs generalizing i es with
  | nil => simp [parseNumElems] at h
  | cons x rest ih =>
      rw [parseNumElems, exceptMap_error_iff] at h
      refine zipE_nel _ _ ?_ ?_ es h
      · intro fs hfs
        cases x <;> simp [parseNumElem1] at hfs <;> (subst hfs; simp)
      · intro fs hfs
        exact ih (i + 1) fs hfs

theorem parseEmbeddingField_nel (o : Option Value) (es : List ZodIssue)
    (h : parseEmbeddingField o = .error es) : es ≠ [] := by
  cases o with
  | none => simp [parseEmbeddingField] at h
  | some v =>
    cases v with
    | arr xs =>
        rw [parseEmbeddingField, exceptMap_error_iff] at h
        exact parseNumElems_nel 0 xs es h
    | null => simp [parseEmbeddingField] at h; subst h; simp
    | bool b => simp [parseEmbeddingField] at h; subst h; simp
    | num n => simp [parseEmbeddingField] at h; subst h; simp
    | str s => simp [parseEmbeddingField] at h; subst h; simp
    | obj kvs => simp [parseEmbeddingField] at h; subst h; simp

theorem parseStrElems_nel (i : Nat) (xs : List Value) (es : List ZodIssue)
    (h : parseStrElems i xs = .error es) : es ≠ [] := by
  induction xs generalizing i es with
  | nil => simp [parseStrElems] at h
  | cons x rest ih =>
      rw [parseStrElems, exceptMap_error_iff] at h
      refine zipE_nel _ _ ?_ ?_ es h
      · intro fs hfs
        cases x <;> simp [parseStrElem1] at hfs <;> (subst hfs; simp)
      · intro fs hfs
        exact ih (i + 1) fs hfs

theorem parseTagsField_nel (o : Option Value) (es : List ZodIssue)
    (h : parseTagsField o = .error es) : es ≠ [] := by
  cases o with
  | none => simp [parseTagsField] at h
  | some v =>
    cases v with
    | arr xs =>
        rw [parseTagsField, exceptMap_error_iff] at h
        exact parseStrElems_nel 0 xs es h
    | null => simp [parseTagsField] at h; subst h; simp
    | bool b => simp [parseTagsField] at h; subst h; simp
    | num n => simp [parseTagsField] at h; subst h; simp
    | str s => simp [parseTagsField] at h; subst h; simp
    | obj kvs => simp [parseTagsField] at h; subst h; simp

theorem parseEntryWith_nel (check : String → Option ZodIssue) (cp : ZParser)
    (hcp : NeverNilP cp) (v : Value) (es : List ZodIssue)
    (h : parseEntryWith check cp v = .error es) : es ≠ [] := by
  cases v with
  | obj kvs =>
      rw [parseEntryWith, exceptMap_error_iff] at h
      refine zipE_nel _ _ (fun fs hfs => parseIdField_nel _ fs hfs) ?_ es h
      refine zipE_nel _ _ (fun fs hfs => parseTypeWith_nel _ _ fs hfs) ?_
      refine zipE_nel _ _ (fun fs hfs => parseMin1String_nel _ _ fs hfs) ?_
      refine zipE_nel _ _ (fun fs hfs => parseTaskIdField_nel _ fs hfs) ?_
      refine zipE_nel _ _ (fun fs hfs => parseMin1String_nel _ _ fs hfs) ?_
      refine zipE_nel _ _ (fun fs hfs => parseTimestampField_nel _ fs hfs) ?_
      refine zipE_nel _ _ (fun fs hfs => parseStatusField_nel _ fs hfs) ?_
      refine zipE_nel _ _ (fun fs hfs => parseContentWith_nel cp hcp _ fs hfs) ?_
      refine zipE_nel _ _ (fun fs hfs => parseMetadataField_nel _ fs hfs) ?_
      exact zipE_nel _ _ (fun fs hfs => parseEmbeddingField_nel _ fs hfs)
        (fun fs hfs => parseTagsField_nel _ fs hfs)
  | null => simp [parseEntryWith] at h; subst h; simp
  | bool b => simp [parseEntryWith] at h; subst h; simp
  | num n => simp [parseEntryWith] at h; subst h; simp
  | str s => simp [parseEntryWith] at h; subst h; simp
  | arr xs => simp [parseEntryWith] at h; subst h; simp

theorem taskStateContent_nel : NeverNilP taskStateContent := by
  apply zObject_nel
  intro f hf
  simp [List.mem_cons] at hf
  rcases hf with h | h | h | h | h | h | h | h <;> subst h <;>
    first
      | exact zString_nel
      | exact zArray_nel _ zString_nel
      | exact zNumberRange_nel 0 100
      | exact zRecord_nel

theorem commitAuthorSchema_nel : NeverNilP commitAuthorSchema := by
  apply zObject_nel
  intro f hf
  simp [List.mem_cons] at hf
  rcases hf with h | h <;> subst h <;> exact zString_nel

theorem commitFileSchema_nel : NeverNilP commitFileSchema := by
  apply zObject_nel
  intro f hf
  simp [List.mem_cons] at hf
  rcases hf with h | h | h | h <;> subst h <;>
    first
      | exact zString_nel
      | exact zEnum_nel _
      | exact zNumber_nel

theorem commitSemanticSchema_nel : NeverNilP commitSemanticSchema := by
  apply zObject_nel
  intro f hf
  simp [List.mem_cons] at hf
  rcases hf with h | h | h | h <;> subst h <;> exact zArray_nel _ zString_nel

theorem commitDeltaContent_nel : NeverNilP commitDeltaContent := by
  apply zObject_nel
  intro f hf
  simp [List.mem_cons] at hf
  rcases hf with h | h | h | h | h <;> subst h <;>
    first
      | exact zString_nel
      | exact commitAuthorSchema_nel
      | exact zArray_nel _ commitFileSchema_nel
      | exact commitSemanticSchema_nel

theorem codeRefSchema_nel : NeverNilP codeRefSchema := by
  apply zObject_nel
  intro f hf
  simp [List.mem_cons] at hf
  rcases hf with h | h | h <;> subst h <;>
    first
      | exact zString_nel
      | exact zTupleNum2_nel

theorem reasoningEntryContent_nel : NeverNilP reasoningEntryContent := by
  apply zObject_nel
  intro f hf
  simp [List.mem_cons] at hf
  rcases hf with h | h | h | h | h | h | h <;> subst h <;>
    first
      | exact zString_nel
      | exact zArray_nel _ codeRefSchema_nel
      | exact zArray_nel _ zString_nel

theorem periodSchema_nel : NeverNilP periodSchema := by
  apply zObject_nel
  intro f hf
  simp [List.mem_cons] at hf
  rcases hf with h | h <;> subst h <;> exact zDatetime_nel

theorem summaryCheckpointContent_nel : NeverNilP summaryCheckpointContent := by
  apply zObject_nel
  intro f hf
  simp [List.mem_cons] at hf
  rcases hf with h | h | h | h | h | h | h <;> subst h <;>
    first
      | exact periodSchema_nel
      | exact zString_nel
      | exact zArray_nel _ zString_nel
      | exact zRecordNumber_nel

theorem branchMetaContent_nel : NeverNilP branchMetaContent := by
  apply zObject_nel
  intro f hf
  simp [List.mem_cons] at hf
  rcases hf with h | h | h | h | h | h | h | h <;> subst h <;>
    first
      | exact zString_nel
      | exact zArray_nel _ zString_nel
      | exact zDatetime_nel
      | exact zEnum_nel _

theorem zRecord_nelP : NeverNilP zRecord := zRecord_nel

/-- The outcome contract of every public validator: success with data, or
failure with a non-empty error list. -/
def TotalOutcome {α : Type} (r : ValidationResult α) : Prop :=
  (r.success = true ∧ ∃ d, r.data = some d ∧ r.errors = none) ∨
  (r.success = false ∧ r.data = none ∧ ∃ es, r.errors = some es ∧ es ≠ [])

theorem parseZodError_ne_nil (issues : List ZodIssue) (h : issues ≠ []) :
    parseZodError issues ≠ [] := by
  cases issues with
  | nil => exact absurd rfl h
  | cons i rest => simp [parseZodError]

theorem validate_total (v : Value) : TotalOutcome (MemoryEntryValidator.validate v) := by
  cases h : parseMemoryEntrySchema v with
  | ok e =>
      left
      simp [MemoryEntryValidator.validate, h, VOk]
  | error issues =>
      right
      simp [MemoryEntryValidator.validate, h, VErr]
      exact parseZodError_ne_nil issues
        (parseEntryWith_nel checkNativeEnum zRecord zRecord_nel v issues h)

theorem validateByType_total (d : MemoryEntry) :
    TotalOutcome (MemoryEntryValidator.validateByType d) := by
  rw [MemoryEntryValidator.validateByType]
  split_ifs <;>
    first
      | (cases hvr : parseEntryWith (checkLiteral "TaskState") taskStateContent d.toValue with
         | ok e => left; simp [variantResult, hvr, VOk]
         | error issues =>
            right
            simp [variantResult, hvr, VErr]
            exact parseZodError_ne_nil issues
              (parseEntryWith_nel _ _ taskStateContent_nel _ issues hvr))
      | (cases hvr : parseEntryWith (checkLiteral "CommitDelta") commitDeltaContent d.toValue with
         | ok e => left; simp [variantResult, hvr, VOk]
         | error issues =>
            right
            simp [variantResult, hvr, VErr]
            exact parseZodError_ne_nil issues
              (parseEntryWith_nel _ _ commitDeltaContent_nel _ issues hvr))
      | (cases hvr :
          parseEntryWith (checkLiteral "ReasoningEntry") reasoningEntryContent d.toValue with
         | ok e => left; simp [variantResult, hvr, VOk]
         | error issues =>
            right
            simp [variantResult, hvr, VErr]
            exact parseZodError_ne_nil issues
              (parseEntryWith_nel _ _ reasoningEntryContent_nel _ issues hvr))
      | (cases hvr :
          parseEntryWith (checkLiteral "SummaryCheckpoint") summaryCheckpointContent d.toValue with
         | ok e => left; simp [variantResult, hvr, VOk]
         | error issues =>
            right
            simp [variantResult, hvr, VErr]
            exact parseZodError_ne_nil issues
              (parseEntryWith_nel _ _ summaryCheckpointContent_nel _ issues hvr))
      | (cases hvr : parseEntryWith (checkLiteral "BranchMeta") branchMetaContent d.toValue with
         | ok e => left; simp [variantResult, hvr, VOk]
         | error issues =>
            right
            simp [variantResult, hvr, VErr]
            exact parseZodError_ne_nil issues
              (parseEntryWith_nel _ _ branchMetaContent_nel _ issues hvr))
      | (right; simp [VErr])

theorem validateTyped_total (v : Value) :
    TotalOutcome (MemoryEntryValidator.validateTyped v) := by
  rcases validate_shape v with ⟨d, hd⟩ | ⟨es, hes⟩
  · rw [MemoryEntryValidator.validateTyped, hd]
    exact validateByType_total d
  · rw [MemoryEntryValidator.validateTyped, hes]
    have := validate_total v
    rw [hes] at this
    exact this

theorem guard_total {α : Type} (errors : List ValidationError) (a : α) :
    TotalOutcome (if errors.length > 0 then VErr errors else VOk a) := by
  by_cases h : errors.length > 0
  · rw [if_pos h]
    right
    refine ⟨rfl, rfl, errors, rfl, ?_⟩
    exact List.ne_nil_of_length_pos h
  · rw [if_neg h]
    left
    exact ⟨rfl, a, rfl, rfl⟩

theorem ProjectValidator_total (s : String) : TotalOutcome (ProjectValidator.validate s) := by
  rw [ProjectValidator.validate]
  exact guard_total _ _

theorem BranchValidator_total (s : String) : TotalOutcome (BranchValidator.validate s) := by
  rw [BranchValidator.validate]
  exact guard_total _ _

theorem ContentSizeValidator_total (v : Value) :
    TotalOutcome (ContentSizeValidator.validate v) := by
  rw [ContentSizeValidator.validate]
  exact guard_total _ _

theorem EmbeddingValidator_total (l : List Value) :
    TotalOutcome (EmbeddingValidator.validate l) := by
  rw [EmbeddingValidator.validate]
  exact guard_total _ _

theorem validateMemoryEntry_total (v : Value) :
    TotalOutcome (UCPValidator.validateMemoryEntry v) := by
  rcases validateTyped_shape v with ⟨e, he⟩ | ⟨es, hes⟩
  · rw [validateMemoryEntry_of_ok v e he]
    exact guard_total _ _
  · rw [validateMemoryEntry_of_err v es hes]
    have htot := validateTyped_total v
    rw [hes] at htot
    rcases htot with ⟨hsucc, _⟩ | ⟨_, _, es₂, hsome, hne⟩
    · simp [VErr] at hsucc
    · right
      refine ⟨rfl, rfl, es, rfl, ?_⟩
      simp [VErr] at hsome
      exact hsome ▸ hne

/-! ### Error values named by the spec claims -/

/-- The errors of a failure result (empty list on success). -/
def errorsOf {α : Type} (r : ValidationResult α) : List ValidationError :=
  r.errors.getD []

/-- The leading/trailing-slash branch error. -/
def branchEdgeSlashError : ValidationError :=
  ⟨"INVALID_FORMAT", "Branch name cannot start or end with a slash", none, none⟩

/-- The consecutive-slashes branch error. -/
def branchDoubleSlashError : ValidationError :=
  ⟨"INVALID_FORMAT", "Branch name cannot contain consecutive slashes", none, none⟩

/-- The empty-embedding error. -/
def emptyEmbeddingError : ValidationError :=
  ⟨"EMPTY_EMBEDDING", "Embedding cannot be empty", none, none⟩

/-- The unsupported-dimension embedding error for length `n`. -/
def dimensionError (n : Nat) : ValidationError :=
  ⟨"INVALID_DIMENSION", "Embedding dimension (" ++ toString n ++
    ") is not supported. Supported dimensions: 384, 512, 768, 1024, 1536", none, none⟩

/-- The index-addressed invalid-element embedding error for index `i`. -/
def invalidValueError (i : Nat) : ValidationError :=
  ⟨"INVALID_VALUE", "Embedding value at index " ++ toString i ++
    " is not a valid number", some [toString i], none⟩

/-- The oversized-content error for a serialized size of `n` bytes. -/
def contentTooLargeError (n : Nat) : ValidationError :=
  ⟨"CONTENT_TOO_LARGE", "Content size (" ++ toString n ++
    " bytes) exceeds maximum allowed size (" ++ toString maxContentSize ++ " bytes)",
    none, none⟩

/-! ### Concrete test entries -/

/-- A well-formed `TaskState` content object whose description is `s`. -/
def taskContentWith (s : String) : Value :=
  .obj [("description", .str s), ("goals", .arr []), ("progress", .num (.fin 50)),
    ("context", .obj []), ("activeFiles", .arr []), ("workingDirectory", .str "/")]

/-- A `TaskState` content object with the given progress value. -/
def taskContentProgress (p : ℚ) : Value :=
  .obj [("description", .str "d"), ("goals", .arr []), ("progress", .num (.fin p)),
    ("context", .obj []), ("activeFiles", .arr []), ("workingDirectory", .str "/")]

/-- A candidate `TaskState` envelope with the given project, branch,
content, and trailing extra members. -/
def mkCandidate (project branch : String) (content : Value)
    (extra : List (String × Value)) : Value :=
  .obj ([("id", .str "00000000-0000-0000-0000-000000000000"),
    ("type", .str "TaskState"),
    ("project", .str project),
    ("taskId", .null),
    ("branch", .str branch),
    ("timestamp", .str "2024-01-01T00:00:00Z"),
    ("status", .str "draft"),
    ("content", content)] ++ extra)

/-- The typed entry the candidate above validates to. -/
def mkEntry (project branch : String) (content : Value) (emb : Option (List JNum)) :
    MemoryEntry :=
  ⟨"00000000-0000-0000-0000-000000000000", "TaskState", project, none, branch,
    "2024-01-01T00:00:00Z", "draft", content, none, emb, none⟩

/-! ### Membership helpers for the collect-all phase -/

theorem pushedErrors_guard {α : Type} (errors : List ValidationError) (a : α) :
    pushedErrors (if errors.length > 0 then VErr errors else VOk a) = errors := by
  by_cases h : errors.length > 0
  · rw [if_pos h]
    simp [pushedErrors, VErr]
  · rw [if_neg h]
    simp at h
    simp [pushedErrors, VOk, h]

theorem errorsOf_guard {α : Type} (errors : List ValidationError) (a : α) :
    errorsOf (if errors.length > 0 then VErr errors else VOk a) = errors := by
  by_cases h : errors.length > 0
  · rw [if_pos h]
    simp [errorsOf, VErr]
  · rw [if_neg h]
    simp at h
    simp [errorsOf, VOk, h]

theorem validateMemoryEntry_err_of_mem (v : Value) (d : MemoryEntry) (err : ValidationError)
    (h : MemoryEntryValidator.validateTyped v = VOk d) (hm : err ∈ phase2Errors d) :
    UCPValidator.validateMemoryEntry v = VErr (phase2Errors d) := by
  rw [validateMemoryEntry_of_ok v d h,
    if_pos (List.length_pos.mpr (List.ne_nil_of_mem hm))]

theorem embeddingElemErrors_mem (l : List Value) (i j : Nat) (x : Value)
    (hx : l[j]? = some x) (hv : isValidEmbeddingElem x = false) :
    invalidValueError (i + j) ∈ embeddingElemErrors i l := by
  induction l generalizing i j with
  | nil => simp at hx
  | cons y rest ih =>
      cases j with
      | zero =>
          simp at hx
          subst hx
          simp [embeddingElemErrors, hv, invalidValueError]
      | succ j₂ =>
          simp at hx
          have := ih (i + 1) j₂ hx
          rw [embeddingElemErrors]
          refine List.mem_append_right _ ?_
          have harith : i + 1 + j₂ = i + (j₂ + 1) := by omega
          rw [harith] at this
          exact this

theorem embedding_errors_spec (l : List Value) :
    (l.length = 0 → emptyEmbeddingError ∈ errorsOf (EmbeddingValidator.validate l)) ∧
    (l.length ∉ supportedDimensions →
      dimensionError l.length ∈ errorsOf (EmbeddingValidator.validate l)) ∧
    (∀ j x, l[j]? = some x → isValidEmbeddingElem x = false →
      invalidValueError j ∈ errorsOf (EmbeddingValidator.validate l)) := by
  rw [EmbeddingValidator.validate, errorsOf_guard]
  refine ⟨?_, ?_, ?_⟩
  · intro h
    refine List.mem_append_left _ (List.mem_append_left _ ?_)
    simp [h, emptyEmbeddingError]
  · intro h
    refine List.mem_append_left _ (List.mem_append_right _ ?_)
    simp [h, dimensionError]
  · intro j x hx hv
    refine List.mem_append_right _ ?_
    have := embeddingElemErrors_mem l 0 j x hx hv
    simpa using this

/-! ### UTF-8 size arithmetic for large contents -/

theorem utf8LenChars_append (a b : List Char) :
    utf8LenChars (a ++ b) = utf8LenChars a + utf8LenChars b := by
  induction a with
  | nil => simp [utf8LenChars]
  | cons c rest ih => simp [utf8LenChars, ih]; omega

theorem utf8Len_append (a b : String) : utf8Len (a ++ b) = utf8Len a + utf8Len b := by
  rw [utf8Len, utf8Len, utf8Len, String.data_append, utf8LenChars_append]

theorem escapeString_replicate_x (n : Nat) :
    escapeString (String.mk (List.replicate n 'x')) = String.mk (List.replicate n 'x') := by
  induction n with
  | zero => rfl
  | succ m ih =>
      show escapeString (String.mk (List.replicate (m + 1) 'x')) = _
      rw [List.replicate_succ]
      have hstep : escapeString (String.mk ('x' :: List.replicate m 'x')) =
          escapeChar 'x' ++ escapeString (String.mk (List.replicate m 'x')) := rfl
      rw [hstep, ih]
      rfl

theorem utf8LenChars_replicate_x (n : Nat) :
    utf8LenChars (List.replicate n 'x') = n := by
  induction n with
  | zero => rfl
  | succ m ih =>
      rw [List.replicate_succ, utf8LenChars, ih]
      have hx : Char.utf8Size 'x' = 1 := by decide
      omega

/-- A 1,100,000-character string: its serialized content is far over the
1 MB ceiling. -/
def hugeStr : String := String.mk (List.replicate 1100000 'x')

theorem hugeStr_utf8Len : utf8Len hugeStr = 1100000 := by
  rw [hugeStr, utf8Len]
  exact utf8LenChars_replicate_x 1100000

theorem hugeStr_escape : escapeString hugeStr = hugeStr := by
  rw [hugeStr]
  exact escapeString_replicate_x 1100000

theorem huge_content_size :
    utf8Len (jsonStringify (taskContentWith hugeStr)) > maxContentSize := by
  rw [show jsonStringify (taskContentWith hugeStr) =
      "\x7b" ++ jsonObject [("description", Value.str hugeStr), ("goals", .arr []),
        ("progress", .num (.fin 50)), ("context", .obj []), ("activeFiles", .arr []),
        ("workingDirectory", .str "/")] ++ "\x7d" from rfl]
  rw [show jsonObject [("description", Value.str hugeStr), ("goals", .arr []),
        ("progress", .num (.fin 50)), ("context", .obj []), ("activeFiles", .arr []),
        ("workingDirectory", .str "/")] =
      "\"" ++ escapeString "description" ++ "\":" ++ jsonStringify (Value.str hugeStr) ++ "," ++
        jsonObject [("goals", .arr []), ("progress", .num (.fin 50)), ("context", .obj []),
          ("activeFiles", .arr []), ("workingDirectory", .str "/")] from rfl]
  rw [show jsonStringify (Value.str hugeStr) = "\"" ++ escapeString hugeStr ++ "\"" from rfl]
  rw [hugeStr_escape]
  simp only [utf8Len_append]
  rw [hugeStr_utf8Len]
  decide

set_option maxRecDepth 4000

/-- A well-formed candidate entry parses to the expected typed entry, for
any description string. -/
theorem validateTyped_mkCandidate (s : String) :
    MemoryEntryValidator.validateTyped
      (mkCandidate "proj" "feature/x" (taskContentWith s) []) =
    VOk (mkEntry "proj" "feature/x" (taskContentWith s) none) := rfl

/-- The 400-element embedding with a `NaN` at index 3 used by the spec's
embedding example. -/
def emb400 : List JNum :=
  List.replicate 3 (JNum.fin 0) ++ [JNum.nan] ++ List.replicate 396 (JNum.fin 0)

/-! ### The claims -/

/-- A well-formed candidate with `taskId: null`. -/
def goodCand : Value := mkCandidate "proj" "feature/x" (taskContentWith "d") []

/-- The entry `goodCand` validates to. -/
def goodEntry : MemoryEntry := mkEntry "proj" "feature/x" (taskContentWith "d") none

/-- The spec's phase-1 example: invalid project name and a content-schema
violation (`progress` 150) in the same candidate. -/
def badProgressCand : Value :=
  mkCandidate "bad project!" "feature/x" (taskContentProgress 150) []

/-- C1: whenever phase 1 (structural envelope validation or type dispatch)
fails, `validateMemoryEntry` returns exactly that phase's result — the
phase-2 field validators contribute nothing; in particular the candidate
with project `"bad project!"` and `progress` 150 reports only the single
content-schema `too_big` error at `["content", "progress"]`, never the
project-name error. -/
theorem phase1_short_circuits_progress_example :
    (∀ v : Value, (MemoryEntryValidator.validateTyped v).success = false →
      UCPValidator.validateMemoryEntry v = MemoryEntryValidator.validateTyped v) ∧
    UCPValidator.validateMemoryEntry badProgressCand =
      VErr [⟨"too_big", "Number must be less than or equal to 100",
        some ["content", "progress"], some [("received", none), ("expected", none)]⟩] := by
  constructor
  · intro v h
    rcases validateTyped_shape v with ⟨e, he⟩ | ⟨es, hes⟩
    · rw [he] at h
      simp [VOk] at h
    · rw [hes]
      exact validateMemoryEntry_of_err v es hes
  · rfl

/-- C1 witness: the short-circuit applied to a concrete phase-1 failure. -/
theorem phase1_short_circuits_progress_example_witness :
    UCPValidator.validateMemoryEntry badProgressCand =
      MemoryEntryValidator.validateTyped badProgressCand :=
  phase1_short_circuits_progress_example.1 badProgressCand (by rfl)

/-- C2: a candidate whose `type` is a string outside the 5 known
discriminants, with every other envelope member valid, fails with exactly
one error — the enum violation at path `["type"]` naming the received
value — regardless of what (map-shaped) content it carries; no field or
content errors appear. -/
theorem unknown_type_single_enum_error (kvs : List (String × Value)) (ty : String)
    (hty : lookupField "type" kvs = some (Value.str ty))
    (hmem : ty ∉ memoryEntryTypes)
    (hid : ∃ a, parseIdField (lookupField "id" kvs) = .ok a)
    (hpr : ∃ a, parseMin1String "project" (lookupField "project" kvs) = .ok a)
    (htk : ∃ a, parseTaskIdField (lookupField "taskId" kvs) = .ok a)
    (hbr : ∃ a, parseMin1String "branch" (lookupField "branch" kvs) = .ok a)
    (hts : ∃ a, parseTimestampField (lookupField "timestamp" kvs) = .ok a)
    (hst : ∃ a, parseStatusField (lookupField "status" kvs) = .ok a)
    (hct : ∃ a, parseContentWith zRecord (lookupField "content" kvs) = .ok a)
    (hmd : ∃ a, parseMetadataField (lookupField "metadata" kvs) = .ok a)
    (hemb : ∃ a, parseEmbeddingField (lookupField "embedding" kvs) = .ok a)
    (htg : ∃ a, parseTagsField (lookupField "tags" kvs) = .ok a) :
    UCPValidator.validateMemoryEntry (Value.obj kvs) =
      VErr [⟨"invalid_enum_value", "Invalid enum value, received " ++ ty, some ["type"],
        some [("received", some ty), ("expected", none)]⟩] := by
  obtain ⟨a1, h1⟩ := hid
  obtain ⟨a2, h2⟩ := hpr
  obtain ⟨a3, h3⟩ := htk
  obtain ⟨a4, h4⟩ := hbr
  obtain ⟨a5, h5⟩ := hts
  obtain ⟨a6, h6⟩ := hst
  obtain ⟨a7, h7⟩ := hct
  obtain ⟨a8, h8⟩ := hmd
  obtain ⟨a9, h9⟩ := hemb
  obtain ⟨a10, h10⟩ := htg
  have htyerr : parseTypeWith checkNativeEnum (lookupField "type" kvs) =
      .error [⟨"invalid_enum_value", "Invalid enum value, received " ++ ty, ["type"],
        some ty, none⟩] := by
    rw [hty]
    simp [parseTypeWith, checkNativeEnum, hmem]
  have hparse : parseMemoryEntrySchema (Value.obj kvs) =
      .error [⟨"invalid_enum_value", "Invalid enum value, received " ++ ty, ["type"],
        some ty, none⟩] := by
    rw [parseMemoryEntrySchema, parseEntryWith, h1, htyerr, h2, h3, h4, h5, h6, h7,
      h8, h9, h10]
    rfl
  have hval : MemoryEntryValidator.validate (Value.obj kvs) =
      VErr [⟨"invalid_enum_value", "Invalid enum value, received " ++ ty, some ["type"],
        some [("received", some ty), ("expected", none)]⟩] := by
    simp [MemoryEntryValidator.validate, hparse, parseZodError, VErr]
  have htyp : MemoryEntryValidator.validateTyped (Value.obj kvs) =
      VErr [⟨"invalid_enum_value", "Invalid enum value, received " ++ ty, some ["type"],
        some [("received", some ty), ("expected", none)]⟩] := by
    rw [MemoryEntryValidator.validateTyped, hval]
    rfl
  exact validateMemoryEntry_of_err _ _ htyp

/-- An otherwise well-formed candidate whose `type` is `"FooBar"`. -/
def unknownTypeCand : List (String × Value) :=
  [("id", .str "00000000-0000-0000-0000-000000000000"),
    ("type", .str "FooBar"),
    ("project", .str "proj"),
    ("taskId", .null),
    ("branch", .str "feature/x"),
    ("timestamp", .str "2024-01-01T00:00:00Z"),
    ("status", .str "draft"),
    ("content", .obj [])]

/-- C2 witness: the unknown-discriminant result at a concrete candidate. -/
theorem unknown_type_single_enum_error_witness :
    UCPValidator.validateMemoryEntry (Value.obj unknownTypeCand) =
      VErr [⟨"invalid_enum_value", "Invalid enum value, received " ++ "FooBar", some ["type"],
        some [("received", some "FooBar"), ("expected", none)]⟩] :=
  unknown_type_single_enum_error unknownTypeCand "FooBar" rfl (by decide)
    ⟨_, rfl⟩ ⟨_, rfl⟩ ⟨_, rfl⟩ ⟨_, rfl⟩ ⟨_, rfl⟩ ⟨_, rfl⟩ ⟨_, rfl⟩ ⟨_, rfl⟩ ⟨_, rfl⟩ ⟨_, rfl⟩

/-- C3: every public validator and the aggregator is a total function of
its input and returns either success with validated data or failure with a
non-empty error list — no exception crosses the boundary (each is a total
Lean function by construction). -/
theorem validators_total_no_throw :
    (∀ v : Value, TotalOutcome (MemoryEntryValidator.validate v)) ∧
    (∀ v : Value, TotalOutcome (MemoryEntryValidator.validateTyped v)) ∧
    (∀ s : String, TotalOutcome (ProjectValidator.validate s)) ∧
    (∀ s : String, TotalOutcome (BranchValidator.validate s)) ∧
    (∀ v : Value, TotalOutcome (ContentSizeValidator.validate v)) ∧
    (∀ l : List Value, TotalOutcome (EmbeddingValidator.validate l)) ∧
    (∀ v : Value, TotalOutcome (UCPValidator.validateMemoryEntry v)) :=
  ⟨validate_total, validateTyped_total, ProjectValidator_total, BranchValidator_total,
    ContentSizeValidator_total, EmbeddingValidator_total, validateMemoryEntry_total⟩

/-- C4: re-validating the data returned by a successful
`validateMemoryEntry` succeeds again and returns the same entry,
field for field — validation performs no hidden mutation. -/
theorem validate_roundtrip_idempotent (v : Value) (d : MemoryEntry)
    (h : UCPValidator.validateMemoryEntry v = VOk d) :
    UCPValidator.validateMemoryEntry d.toValue = VOk d := by
  rw [validateMemoryEntry_ok_iff] at h
  obtain ⟨h1, h2⟩ := h
  rw [validateMemoryEntry_ok_iff]
  exact ⟨validateTyped_roundtrip v d h1, h2⟩

/-- C4 witness: the round-trip at a concrete accepted entry. -/
theorem validate_roundtrip_idempotent_witness :
    UCPValidator.validateMemoryEntry goodEntry.toValue = VOk goodEntry :=
  validate_roundtrip_idempotent goodCand goodEntry (by rfl)

/-- A candidate omitting the `taskId` key entirely but satisfying every
other envelope and content rule. -/
def noTaskIdCand : Value :=
  .obj [("id", .str "00000000-0000-0000-0000-000000000000"),
    ("type", .str "TaskState"),
    ("project", .str "proj"),
    ("branch", .str "feature/x"),
    ("timestamp", .str "2024-01-01T00:00:00Z"),
    ("status", .str "draft"),
    ("content", taskContentWith "d")]

/-- C5 counterexample: the claim says a candidate omitting the `taskId`
key passes validation; on the code it fails — `taskId: z.string().nullable()`
admits `null` but not a missing key, so the candidate is rejected with a
required-member error at `["taskId"]`. -/
theorem taskId_omitted_is_rejected :
    UCPValidator.validateMemoryEntry noTaskIdCand =
      VErr [⟨"invalid_type", "Required", some ["taskId"],
        some [("received", some "undefined"), ("expected", some "string")]⟩] := rfl

/-- C5 (amended): `taskId` is nullable but not omittable — a candidate
carrying `taskId: null` (all other rules satisfied) passes validation,
while every candidate whose object lacks the `taskId` key fails. -/
theorem taskId_nullable_requires_presence :
    (∀ kvs : List (String × Value), lookupField "taskId" kvs = none →
      (UCPValidator.validateMemoryEntry (Value.obj kvs)).success = false) ∧
    UCPValidator.validateMemoryEntry goodCand = VOk goodEntry := by
  constructor
  · intro kvs hl
    rcases validateMemoryEntry_shape (Value.obj kvs) with ⟨e, he⟩ | ⟨es, hes⟩
    · exfalso
      rw [validateMemoryEntry_ok_iff] at he
      obtain ⟨hty, _⟩ := he
      rw [validateTyped_ok_iff] at hty
      obtain ⟨d, hval, _⟩ := hty
      rw [validate_ok_iff, parseMemoryEntrySchema, parseEntryWith_obj_ok_iff] at hval
      have htk := hval.2.2.2.1
      rw [hl] at htk
      simp [parseTaskIdField] at htk
    · rw [hes]
      rfl
  · rfl

/-- C5 witness: the amended claim applied to a concrete candidate without
a `taskId` key. -/
theorem taskId_nullable_requires_presence_witness :
    (UCPValidator.validateMemoryEntry (Value.obj [])).success = false :=
  taskId_nullable_requires_presence.1 [] rfl

/-- C6: the embedding validator accumulates, in one result, an error for
an empty array, an error for an unsupported length, and an index-addressed
error for every non-numeric, `NaN` or infinite element, without
short-circuiting; an entry that passes phase 1 with an embedding of length
400 and `NaN` at index 3 fails with both the `INVALID_DIMENSION` error
and the `INVALID_VALUE` error at path `["3"]` in the same result. -/
theorem embedding_error_accumulation :
    (∀ l : List Value,
      (l.length = 0 → emptyEmbeddingError ∈ errorsOf (EmbeddingValidator.validate l)) ∧
      (l.length ∉ supportedDimensions →
        dimensionError l.length ∈ errorsOf (EmbeddingValidator.validate l)) ∧
      (∀ j x, l[j]? = some x → isValidEmbeddingElem x = false →
        invalidValueError j ∈ errorsOf (EmbeddingValidator.validate l))) ∧
    (∀ (cand : Value) (d : MemoryEntry) (ns : List JNum),
      MemoryEntryValidator.validateTyped cand = VOk d → d.embedding = some ns →
      ns.length = 400 → ns[3]? = some JNum.nan →
      UCPValidator.validateMemoryEntry cand = VErr (phase2Errors d) ∧
      dimensionError 400 ∈ phase2Errors d ∧ invalidValueError 3 ∈ phase2Errors d) := by
  constructor
  · exact embedding_errors_spec
  · intro cand d ns h1 hemb h400 h3
    have hlen : (ns.map Value.num).length = 400 := by
      rw [List.length_map, h400]
    have hx : (ns.map Value.num)[3]? = some (Value.num JNum.nan) := by
      rw [List.getElem?_map, h3]
      rfl
    have hspec := embedding_errors_spec (ns.map Value.num)
    have hdim : dimensionError 400 ∈ errorsOf (EmbeddingValidator.validate (ns.map Value.num)) := by
      have := hspec.2.1 (by rw [hlen]; decide)
      rw [hlen] at this
      exact this
    have hval : invalidValueError 3 ∈
        errorsOf (EmbeddingValidator.validate (ns.map Value.num)) :=
      hspec.2.2 3 (Value.num JNum.nan) hx (by rfl)
    have hpe : pushedErrors (EmbeddingValidator.validate (ns.map Value.num)) =
        errorsOf (EmbeddingValidator.validate (ns.map Value.num)) := by
      rw [EmbeddingValidator.validate, pushedErrors_guard, errorsOf_guard]
    have hembpart : ∀ err, err ∈ errorsOf (EmbeddingValidator.validate (ns.map Value.num)) →
        err ∈ phase2Errors d := by
      intro err herr
      rw [phase2Errors, hemb]
      refine List.mem_append_right _ ?_
      show err ∈ pushedErrors (EmbeddingValidator.validate (ns.map Value.num))
      rw [hpe]
      exact herr
    have hdim₂ := hembpart _ hdim
    have hval₂ := hembpart _ hval
    exact ⟨validateMemoryEntry_err_of_mem cand d _ h1 hdim₂, hdim₂, hval₂⟩

/-- The candidate carrying the 400-element embedding with `NaN` at
index 3. -/
def embCand : Value :=
  mkCandidate "proj" "feature/x" (taskContentWith "d")
    [("embedding", .arr (emb400.map Value.num))]

/-- The entry `embCand`'s phase 1 produces. -/
def embEntry : MemoryEntry := mkEntry "proj" "feature/x" (taskContentWith "d") (some emb400)

/-- C6 witness: the embedding example at the concrete 400-element entry. -/
theorem embedding_error_accumulation_witness :
    UCPValidator.validateMemoryEntry embCand = VErr (phase2Errors embEntry) ∧
    dimensionError 400 ∈ phase2Errors embEntry ∧ invalidValueError 3 ∈ phase2Errors embEntry :=
  embedding_error_accumulation.2 embCand embEntry emb400 (by rfl) rfl (by rfl) (by rfl)

/-- C7: the branch-name validator reports every co-occurring violation
among too-short, too-long, bad-format, leading/trailing slash and
consecutive slashes together; an entry that passes phase 1 with branch
`"/x//y/"` fails with both the edge-slash error and the
consecutive-slashes error in the same result. -/
theorem branch_violations_all_reported :
    (∀ s : String,
      (s.length < 1 →
        (⟨"TOO_SHORT", "Branch name must be at least 1 character(s)", none, none⟩ :
          ValidationError) ∈ errorsOf (BranchValidator.validate s)) ∧
      (s.length > 250 →
        (⟨"TOO_LONG", "Branch name must be at most 250 characters", none, none⟩ :
          ValidationError) ∈ errorsOf (BranchValidator.validate s)) ∧
      (branchNameTest s = false →
        (⟨"INVALID_FORMAT", "Branch name contains invalid characters", none, none⟩ :
          ValidationError) ∈ errorsOf (BranchValidator.validate s)) ∧
      ((headIsSlash s || lastIsSlash s) = true →
        branchEdgeSlashError ∈ errorsOf (BranchValidator.validate s)) ∧
      (hasDoubleSlash s.data = true →
        branchDoubleSlashError ∈ errorsOf (BranchValidator.validate s))) ∧
    (∀ (cand : Value) (d : MemoryEntry),
      MemoryEntryValidator.validateTyped cand = VOk d → d.branch = "/x//y/" →
      UCPValidator.validateMemoryEntry cand = VErr (phase2Errors d) ∧
      branchEdgeSlashError ∈ phase2Errors d ∧ branchDoubleSlashError ∈ phase2Errors d) := by
  constructor
  · intro s
    rw [BranchValidator.validate, errorsOf_guard]
    refine ⟨?_, ?_, ?_, ?_, ?_⟩
    · intro h
      refine List.mem_append_left _ (List.mem_append_left _ (List.mem_append_left _
        (List.mem_append_left _ ?_)))
      rw [if_pos h]
      simp
    · intro h
      refine List.mem_append_left _ (List.mem_append_left _ (List.mem_append_left _
        (List.mem_append_right _ ?_)))
      rw [if_pos h]
      simp
    · intro h
      refine List.mem_append_left _ (List.mem_append_left _ (List.mem_append_right _ ?_))
      rw [h]
      simp
    · intro h
      refine List.mem_append_left _ (List.mem_append_right _ ?_)
      rw [if_pos h]
      simp [branchEdgeSlashError]
    · intro h
      refine List.mem_append_right _ ?_
      rw [if_pos h]
      simp [branchDoubleSlashError]
  · intro cand d h1 hbr
    have hpb : pushedErrors (BranchValidator.validate d.branch) =
        [branchEdgeSlashError, branchDoubleSlashError] := by
      rw [hbr]
      rfl
    have hmem : ∀ err ∈ [branchEdgeSlashError, branchDoubleSlashError],
        err ∈ phase2Errors d := by
      intro err herr
      rw [phase2Errors]
      exact List.mem_append_left _ (List.mem_append_left _
        (List.mem_append_right _ (hpb ▸ herr)))
    have hedge := hmem branchEdgeSlashError (by simp)
    have hdbl := hmem branchDoubleSlashError (by simp)
    exact ⟨validateMemoryEntry_err_of_mem cand d _ h1 hedge, hedge, hdbl⟩

/-- The candidate with branch `"/x//y/"`. -/
def edgeBranchCand : Value := mkCandidate "proj" "/x//y/" (taskContentWith "d") []

/-- The entry `edgeBranchCand`'s phase 1 produces. -/
def edgeBranchEntry : MemoryEntry := mkEntry "proj" "/x//y/" (taskContentWith "d") none

/-- C7 witness: the two simultaneous branch errors at the concrete entry. -/
theorem branch_violations_all_reported_witness :
    UCPValidator.validateMemoryEntry edgeBranchCand = VErr (phase2Errors edgeBranchEntry) ∧
    branchEdgeSlashError ∈ phase2Errors edgeBranchEntry ∧
    branchDoubleSlashError ∈ phase2Errors edgeBranchEntry :=
  branch_violations_all_reported.2 edgeBranchCand edgeBranchEntry (by rfl) rfl

/-- C8: an entry that passes phase 1 and whose content serializes to
strictly more than 1,048,576 UTF-8 bytes fails with a
`CONTENT_TOO_LARGE` error among its merged phase-2 errors; and the
validation is deterministic — any two runs on the same candidate produce
the same result, hence the same error set. -/
theorem oversized_content_reported_deterministically (cand : Value) (d : MemoryEntry)
    (h : MemoryEntryValidator.validateTyped cand = VOk d)
    (hsize : utf8Len (jsonStringify d.content) > maxContentSize) :
    UCPValidator.validateMemoryEntry cand = VErr (phase2Errors d) ∧
    contentTooLargeError (utf8Len (jsonStringify d.content)) ∈ phase2Errors d ∧
    (∀ r₁ r₂ : ValidationResult MemoryEntry,
      r₁ = UCPValidator.validateMemoryEntry cand → r₂ = UCPValidator.validateMemoryEntry cand →
      r₁ = r₂) := by
  have hpc : contentTooLargeError (utf8Len (jsonStringify d.content)) ∈
      pushedErrors (ContentSizeValidator.validate d.content) := by
    simp only [ContentSizeValidator.validate]
    rw [pushedErrors_guard]
    refine List.mem_append_left _ ?_
    rw [if_pos hsize]
    simp [contentTooLargeError]
  have hmem : contentTooLargeError (utf8Len (jsonStringify d.content)) ∈ phase2Errors d := by
    rw [phase2Errors]
    exact List.mem_append_left _ (List.mem_append_right _ hpc)
  refine ⟨validateMemoryEntry_err_of_mem cand d _ h hmem, hmem, ?_⟩
  intro r₁ r₂ h₁ h₂
  rw [h₁, h₂]

/-- The candidate whose content holds a 1,100,000-character description. -/
def hugeCand : Value := mkCandidate "proj" "feature/x" (taskContentWith hugeStr) []

/-- The entry `hugeCand`'s phase 1 produces. -/
def hugeEntry : MemoryEntry := mkEntry "proj" "feature/x" (taskContentWith hugeStr) none

/-- C8 witness: the oversized-content failure at the concrete entry. -/
theorem oversized_content_reported_deterministically_witness :
    UCPValidator.validateMemoryEntry hugeCand = VErr (phase2Errors hugeEntry) ∧
    contentTooLargeError (utf8Len (jsonStringify hugeEntry.content)) ∈ phase2Errors hugeEntry :=
  have happ := oversized_content_reported_deterministically hugeCand hugeEntry
    (validateTyped_mkCandidate hugeStr) huge_content_size
  ⟨happ.1, happ.2.1⟩

/-- C10: the embedding validator on the empty array reports both the
empty-embedding error and the unsupported-dimension error (length 0) in
the same result; an entry that passes phase 1 carrying an empty embedding
array is still run through the validator and fails with both. -/
theorem empty_embedding_two_errors :
    EmbeddingValidator.validate ([] : List Value) =
      VErr [emptyEmbeddingError, dimensionError 0] ∧
    (∀ (cand : Value) (d : MemoryEntry),
      MemoryEntryValidator.validateTyped cand = VOk d → d.embedding = some [] →
      UCPValidator.validateMemoryEntry cand = VErr (phase2Errors d) ∧
      emptyEmbeddingError ∈ phase2Errors d ∧ dimensionError 0 ∈ phase2Errors d) := by
  constructor
  · rfl
  · intro cand d h1 hemb
    have hpe : pushedErrors (EmbeddingValidator.validate (([] : List JNum).map Value.num)) =
        [emptyEmbeddingError, dimensionError 0] := rfl
    have hmem : ∀ err ∈ [emptyEmbeddingError, dimensionError 0], err ∈ phase2Errors d := by
      intro err herr
      rw [phase2Errors, hemb]
      refine List.mem_append_right _ ?_
      show err ∈ pushedErrors (EmbeddingValidator.validate (([] : List JNum).map Value.num))
      rw [hpe]
      exact herr
    have hempty := hmem emptyEmbeddingError (by simp)
    have hdim := hmem (dimensionError 0) (by simp)
    exact ⟨validateMemoryEntry_err_of_mem cand d _ h1 hempty, hempty, hdim⟩

/-- The candidate carrying an empty embedding array. -/
def emptyEmbCand : Value :=
  mkCandidate "proj" "feature/x" (taskContentWith "d") [("embedding", .arr [])]

/-- The entry `emptyEmbCand`'s phase 1 produces. -/
def emptyEmbEntry : MemoryEntry :=
  mkEntry "proj" "feature/x" (taskContentWith "d") (some [])

/-- C10 witness: the two empty-embedding errors at the concrete entry. -/
theorem empty_embedding_two_errors_witness :
    UCPValidator.validateMemoryEntry emptyEmbCand = VErr (phase2Errors emptyEmbEntry) ∧
    emptyEmbeddingError ∈ phase2Errors emptyEmbEntry ∧
    dimensionError 0 ∈ phase2Errors emptyEmbEntry :=
  empty_embedding_two_errors.2 emptyEmbCand emptyEmbEntry (by rfl) rfl

/-! ### No parser issue carries the STRING_TOO_LONG code -/

/-- No issue in the list carries the `STRING_TOO_LONG` code (that code
belongs solely to the content-size validator's scalar-string branch). -/
def NoSTL (issues : List ZodIssue) : Prop := ∀ i ∈ issues, i.code ≠ "STRING_TOO_LONG"

/-- A parser whose failures never carry the `STRING_TOO_LONG` code. -/
def NoSTLP (p : ZParser) : Prop := ∀ v es, p v = .error es → NoSTL es

theorem noSTL_withKeyPath (k : String) (es : List ZodIssue) (h : NoSTL es) :
    NoSTL (withKeyPath k es) := by
  intro i hi
  rw [withKeyPath] at hi
  obtain ⟨j, hj, rfl⟩ := List.mem_map.mp hi
  exact h j hj

theorem noSTL_zipE {α β : Type} (a : Except (List ZodIssue) α) (b : Except (List ZodIssue) β)
    (ha : ∀ es, a = .error es → NoSTL es) (hb : ∀ es, b = .error es → NoSTL es)
    (es : List ZodIssue) (h : zipE a b = .error es) : NoSTL es := by
  cases a with
  | ok av =>
      cases b with
      | ok bv => simp [zipE] at h
      | error bs =>
          simp [zipE] at h
          exact h ▸ hb bs rfl
  | error as =>
      cases b with
      | ok bv =>
          simp [zipE] at h
          exact h ▸ ha as rfl
      | error bs =>
          simp [zipE] at h
          subst h
          intro i hi
          rcases List.mem_append.mp hi with h₁ | h₂
          · exact ha as rfl i h₁
          · exact hb bs rfl i h₂

theorem noSTL_zString : NoSTLP zString := by
  intro v es h
  cases v <;> simp [zString] at h <;> (subst h; intro i hi; simp at hi; simp [hi, invalidTypeIssue])

theorem noSTL_zNumber : NoSTLP zNumber := by
  intro v es h
  cases v <;> simp [zNumber] at h <;> (subst h; intro i hi; simp at hi; simp [hi, invalidTypeIssue])

theorem noSTL_zNumberRange (lo hi : ℚ) : NoSTLP (zNumberRange lo hi) := by
  intro v es h
  cases v with
  | num n =>
      cases hblt : n.blt lo <;> cases hbgt : n.bgt hi <;>
        simp [zNumberRange, hblt, hbgt] at h <;>
        (subst h; intro i hi₂; simp at hi₂) <;>
        first
          | (rcases hi₂ with h₁ | h₁ <;> simp [h₁])
          | simp [hi₂]
  | null =>
      simp [zNumberRange] at h
      subst h
      intro i hi₂
      simp at hi₂
      simp [hi₂, invalidTypeIssue]
  | bool b =>
      simp [zNumberRange] at h
      subst h
      intro i hi₂
      simp at hi₂
      simp [hi₂, invalidTypeIssue]
  | str s =>
      simp [zNumberRange] at h
      subst h
      intro i hi₂
      simp at hi₂
      simp [hi₂, invalidTypeIssue]
  | arr xs =>
      simp [zNumberRange] at h
      subst h
      intro i hi₂
      simp at hi₂
      simp [hi₂, invalidTypeIssue]
  | obj kvs =>
      simp [zNumberRange] at h
      subst h
      intro i hi₂
      simp at hi₂
      simp [hi₂, invalidTypeIssue]

theorem noSTL_zDatetime : NoSTLP zDatetime := by
  intro v es h
  cases v with
  | str s =>
      by_cases hd : isDatetime s = true <;> simp [zDatetime, hd] at h <;>
        (subst h; intro i hi; simp at hi; simp [hi, invalidTypeIssue])
  | null => simp [zDatetime] at h; subst h; intro i hi; simp at hi; simp [hi, invalidTypeIssue]
  | bool b => simp [zDatetime] at h; subst h; intro i hi; simp at hi; simp [hi, invalidTypeIssue]
  | num n => simp [zDatetime] at h; subst h; intro i hi; simp at hi; simp [hi, invalidTypeIssue]
  | arr xs => simp [zDatetime] at h; subst h; intro i hi; simp at hi; simp [hi, invalidTypeIssue]
  | obj kvs => simp [zDatetime] at h; subst h; intro i hi; simp at hi; simp [hi, invalidTypeIssue]

theorem noSTL_zEnum (vals : List String) : NoSTLP (zEnum vals) := by
  intro v es h
  cases v with
  | str s =>
      by_cases hm : s ∈ vals <;> simp [zEnum, hm] at h <;>
        (subst h; intro i hi; simp at hi; simp [hi, invalidTypeIssue])
  | null => simp [zEnum] at h; subst h; intro i hi; simp at hi; simp [hi, invalidTypeIssue]
  | bool b => simp [zEnum] at h; subst h; intro i hi; simp at hi; simp [hi, invalidTypeIssue]
  | num n => simp [zEnum] at h; subst h; intro i hi; simp at hi; simp [hi, invalidTypeIssue]
  | arr xs => simp [zEnum] at h; subst h; intro i hi; simp at hi; simp [hi, invalidTypeIssue]
  | obj kvs => simp [zEnum] at h; subst h; intro i hi; simp at hi; simp [hi, invalidTypeIssue]

theorem noSTL_zRecord : NoSTLP zRecord := by
  intro v es h
  cases v <;> simp [zRecord] at h <;> (subst h; intro i hi; simp at hi; simp [hi, invalidTypeIssue])

theorem noSTL_zRecordNumberFields (kvs : List (String × Value)) (es : List ZodIssue)
    (h : zRecordNumberFields kvs = .error es) : NoSTL es := by
  induction kvs generalizing es with
  | nil => simp [zRecordNumberFields] at h
  | cons kv rest ih =>
      obtain ⟨k, v⟩ := kv
      rw [zRecordNumberFields, exceptMap_error_iff] at h
      refine noSTL_zipE _ _ ?_ ?_ es h
      · intro fs hfs
        cases v <;> simp [zRecordNumberField1] at hfs <;>
          (subst hfs; intro i hi; simp at hi; simp [hi, invalidTypeIssue])
      · intro fs hfs
        exact ih fs hfs

theorem noSTL_zRecordNumber : NoSTLP zRecordNumber := by
  intro v es h
  cases v with
  | obj kvs =>
      rw [zRecordNumber, exceptMap_error_iff] at h
      exact noSTL_zRecordNumberFields kvs es h
  | null => simp [zRecordNumber] at h; subst h; intro i hi; simp at hi; simp [hi, invalidTypeIssue]
  | bool b => simp [zRecordNumber] at h; subst h; intro i hi; simp at hi; simp [hi, invalidTypeIssue]
  | num n => simp [zRecordNumber] at h; subst h; intro i hi; simp at hi; simp [hi, invalidTypeIssue]
  | str s => simp [zRecordNumber] at h; subst h; intro i hi; simp at hi; simp [hi, invalidTypeIssue]
  | arr xs => simp [zRecordNumber] at h; subst h; intro i hi; simp at hi; simp [hi, invalidTypeIssue]

theorem noSTL_zArrayElems (p : ZParser) (hp : NoSTLP p) (i : Nat) (xs : List Value)
    (es : List ZodIssue) (h : zArrayElems p i xs = .error es) : NoSTL es := by
  induction xs generalizing i es with
  | nil => simp [zArrayElems] at h
  | cons x rest ih =>
      rw [zArrayElems, exceptMap_error_iff] at h
      refine noSTL_zipE _ _ ?_ ?_ es h
      · intro fs hfs
        rw [exceptMapError_error_iff] at hfs
        obtain ⟨gs, hgs, rfl⟩ := hfs
        exact noSTL_withKeyPath _ gs (hp x gs hgs)
      · intro fs hfs
        exact ih (i + 1) fs hfs

theorem noSTL_zArray (p : ZParser) (hp : NoSTLP p) : NoSTLP (zArray p) := by
  intro v es h
  cases v with
  | arr xs =>
      rw [zArray, exceptMap_error_iff] at h
      exact noSTL_zArrayElems p hp 0 xs es h
  | null => simp [zArray] at h; subst h; intro i hi; simp at hi; simp [hi, invalidTypeIssue]
  | bool b => simp [zArray] at h; subst h; intro i hi; simp at hi; simp [hi, invalidTypeIssue]
  | num n => simp [zArray] at h; subst h; intro i hi; simp at hi; simp [hi, invalidTypeIssue]
  | str s => simp [zArray] at h; subst h; intro i hi; simp at hi; simp [hi, invalidTypeIssue]
  | obj kvs => simp [zArray] at h; subst h; intro i hi; simp at hi; simp [hi, invalidTypeIssue]

theorem noSTL_zTupleNum2 : NoSTLP zTupleNum2 := by
  intro v es h
  cases v with
  | arr xs =>
      match xs with
      | [] => simp [zTupleNum2] at h; subst h; intro i hi; simp at hi; simp [hi]
      | [a] => simp [zTupleNum2] at h; subst h; intro i hi; simp at hi; simp [hi]
      | [a, b] =>
          rw [zTupleNum2, exceptMap_error_iff] at h
          refine noSTL_zipE _ _ ?_ ?_ es h
          · intro fs hfs
            rw [exceptMapError_error_iff] at hfs
            obtain ⟨gs, hgs, rfl⟩ := hfs
            refine noSTL_withKeyPath _ gs ?_
            exact noSTL_zNumber a gs hgs
          · intro fs hfs
            rw [exceptMapError_error_iff] at hfs
            obtain ⟨gs, hgs, rfl⟩ := hfs
            refine noSTL_withKeyPath _ gs ?_
            exact noSTL_zNumber b gs hgs
      | a :: b :: c :: rest =>
          simp [zTupleNum2] at h
          subst h
          intro i hi
          simp at hi
          simp [hi]
  | null => simp [zTupleNum2] at h; subst h; intro i hi; simp at hi; simp [hi, invalidTypeIssue]
  | bool b => simp [zTupleNum2] at h; subst h; intro i hi; simp at hi; simp [hi, invalidTypeIssue]
  | num n => simp [zTupleNum2] at h; subst h; intro i hi; simp at hi; simp [hi, invalidTypeIssue]
  | str s => simp [zTupleNum2] at h; subst h; intro i hi; simp at hi; simp [hi, invalidTypeIssue]
  | obj kvs => simp [zTupleNum2] at h; subst h; intro i hi; simp at hi; simp [hi, invalidTypeIssue]

theorem noSTL_zFields (fs : List FieldSpec) (hps : ∀ f ∈ fs, NoSTLP f.p)
    (kvs : List (String × Value)) (es : List ZodIssue)
    (h : zFields fs kvs = .error es) : NoSTL es := by
  induction fs generalizing es with
  | nil => simp [zFields] at h
  | cons f rest ih =>
      rw [zFields, exceptMap_error_iff] at h
      refine noSTL_zipE _ _ ?_ ?_ es h
      · intro gs hgs
        cases hl : lookupField f.key kvs with
        | none =>
            rw [hl] at hgs
            by_cases hopt : f.optional <;> simp [hopt] at hgs
            subst hgs
            intro i hi
            simp at hi
            simp [hi, requiredIssue]
        | some v =>
            rw [hl] at hgs
            cases hpv : f.p v with
            | ok w => simp [hpv] at hgs
            | error gs₂ =>
                simp [hpv] at hgs
                subst hgs
                exact noSTL_withKeyPath _ gs₂
                  (hps f (List.mem_cons_self f rest) v gs₂ hpv)
      · intro gs hgs
        exact ih (fun g hg => hps g (List.mem_cons_of_mem f hg)) gs hgs

theorem noSTL_zObject (fs : List FieldSpec) (hps : ∀ f ∈ fs, NoSTLP f.p) :
    NoSTLP (zObject fs) := by
  intro v es h
  cases v with
  | obj kvs =>
      rw [zObject, exceptMap_error_iff] at h
      exact noSTL_zFields fs hps kvs es h
  | null => simp [zObject] at h; subst h; intro i hi; simp at hi; simp [hi, invalidTypeIssue]
  | bool b => simp [zObject] at h; subst h; intro i hi; simp at hi; simp [hi, invalidTypeIssue]
  | num n => simp [zObject] at h; subst h; intro i hi; simp at hi; simp [hi, invalidTypeIssue]
  | str s => simp [zObject] at h; subst h; intro i hi; simp at hi; simp [hi, invalidTypeIssue]
  | arr xs => simp [zObject] at h; subst h; intro i hi; simp at hi; simp [hi, invalidTypeIssue]

theorem noSTL_taskStateContent : NoSTLP taskStateContent := by
  apply noSTL_zObject
  intro f hf
  simp [List.mem_cons] at hf
  rcases hf with h | h | h | h | h | h | h | h <;> subst h <;>
    first
      | exact noSTL_zString
      | exact noSTL_zArray _ noSTL_zString
      | exact noSTL_zNumberRange 0 100
      | exact noSTL_zRecord

theorem noSTL_commitAuthorSchema : NoSTLP commitAuthorSchema := by
  apply noSTL_zObject
  intro f hf
  simp [List.mem_cons] at hf
  rcases hf with h | h <;> subst h <;> exact noSTL_zString

theorem noSTL_commitFileSchema : NoSTLP commitFileSchema := by
  apply noSTL_zObject
  intro f hf
  simp [List.mem_cons] at hf
  rcases hf with h | h | h | h <;> subst h <;>
    first
      | exact noSTL_zString
      | exact noSTL_zEnum _
      | exact noSTL_zNumber

theorem noSTL_commitSemanticSchema : NoSTLP commitSemanticSchema := by
  apply noSTL_zObject
  intro f hf
  simp [List.mem_cons] at hf
  rcases hf with h | h | h | h <;> subst h <;> exact noSTL_zArray _ noSTL_zString

theorem noSTL_commitDeltaContent : NoSTLP commitDeltaContent := by
  apply noSTL_zObject
  intro f hf
  simp [List.mem_cons] at hf
  rcases hf with h | h | h | h | h <;> subst h <;>
    first
      | exact noSTL_zString
      | exact noSTL_commitAuthorSchema
      | exact noSTL_zArray _ noSTL_commitFileSchema
      | exact noSTL_commitSemanticSchema

theorem noSTL_codeRefSchema : NoSTLP codeRefSchema := by
  apply noSTL_zObject
  intro f hf
  simp [List.mem_cons] at hf
  rcases hf with h | h | h <;> subst h <;>
    first
      | exact noSTL_zString
      | exact noSTL_zTupleNum2

theorem noSTL_reasoningEntryContent : NoSTLP reasoningEntryContent := by
  apply noSTL_zObject
  intro f hf
  simp [List.mem_cons] at hf
  rcases hf with h | h | h | h | h | h | h <;> subst h <;>
    first
      | exact noSTL_zString
      | exact noSTL_zArray _ noSTL_codeRefSchema
      | exact noSTL_zArray _ noSTL_zString

theorem noSTL_periodSchema : NoSTLP periodSchema := by
  apply noSTL_zObject
  intro f hf
  simp [List.mem_cons] at hf
  rcases hf with h | h <;> subst h <;> exact noSTL_zDatetime

theorem noSTL_summaryCheckpointContent : NoSTLP summaryCheckpointContent := by
  apply noSTL_zObject
  intro f hf
  simp [List.mem_cons] at hf
  rcases hf with h | h | h | h | h | h | h <;> subst h <;>
    first
      | exact noSTL_periodSchema
      | exact noSTL_zString
      | exact noSTL_zArray _ noSTL_zString
      | exact noSTL_zRecordNumber

theorem noSTL_branchMetaContent : NoSTLP branchMetaContent := by
  apply noSTL_zObject
  intro f hf
  simp [List.mem_cons] at hf
  rcases hf with h | h | h | h | h | h | h | h <;> subst h <;>
    first
      | exact noSTL_zString
      | exact noSTL_zArray _ noSTL_zString
      | exact noSTL_zDatetime
      | exact noSTL_zEnum _

theorem noSTL_parseIdField (o : Option Value) (es : List ZodIssue)
    (h : parseIdField o = .error es) : NoSTL es := by
  cases o with
  | none => simp [parseIdField] at h; subst h; intro i hi; simp at hi; simp [hi, requiredIssue]
  | some v =>
    cases v with
    | str t =>
        by_cases hu : isUUID t = true <;> simp [parseIdField, hu] at h <;>
          (subst h; intro i hi; simp at hi; simp [hi])
    | null => simp [parseIdField] at h; subst h; intro i hi; simp at hi; simp [hi, invalidTypeIssue]
    | bool b =>
        simp [parseIdField] at h; subst h; intro i hi; simp at hi; simp [hi, invalidTypeIssue]
    | num n => simp [parseIdField] at h; subst h; intro i hi; simp at hi; simp [hi, invalidTypeIssue]
    | arr xs =>
        simp [parseIdField] at h; subst h; intro i hi; simp at hi; simp [hi, invalidTypeIssue]
    | obj kvs =>
        simp [parseIdField] at h; subst h; intro i hi; simp at hi; simp [hi, invalidTypeIssue]

theorem noSTL_parseTypeWith (check : String → Option ZodIssue)
    (hchk : ∀ s i, check s = some i → i.code ≠ "STRING_TOO_LONG") (o : Option Value)
    (es : List ZodIssue) (h : parseTypeWith check o = .error es) : NoSTL es := by
  cases o with
  | none => simp [parseTypeWith] at h; subst h; intro i hi; simp at hi; simp [hi, requiredIssue]
  | some v =>
    cases v with
    | str t =>
        cases hc : check t with
        | none => simp [parseTypeWith, hc] at h
        | some i =>
            simp [parseTypeWith, hc] at h
            subst h
            intro j hj
            simp at hj
            subst hj
            exact hchk t j hc
    | null =>
        simp [parseTypeWith] at h; subst h; intro i hi; simp at hi; simp [hi, invalidTypeIssue]
    | bool b =>
        simp [parseTypeWith] at h; subst h; intro i hi; simp at hi; simp [hi, invalidTypeIssue]
    | num n =>
        simp [parseTypeWith] at h; subst h; intro i hi; simp at hi; simp [hi, invalidTypeIssue]
    | arr xs =>
        simp [parseTypeWith] at h; subst h; intro i hi; simp at hi; simp [hi, invalidTypeIssue]
    | obj kvs =>
        simp [parseTypeWith] at h; subst h; intro i hi; simp at hi; simp [hi, invalidTypeIssue]

theorem noSTL_parseMin1String (key : String) (o : Option Value) (es : List ZodIssue)
    (h : parseMin1String key o = .error es) : NoSTL es := by
  cases o with
  | none => simp [parseMin1String] at h; subst h; intro i hi; simp at hi; simp [hi, requiredIssue]
  | some v =>
    cases v with
    | str t =>
        by_cases hl : t.length < 1 <;> simp [parseMin1String, hl] at h <;>
          (subst h; intro i hi; simp at hi; simp [hi])
    | null =>
        simp [parseMin1String] at h; subst h; intro i hi; simp at hi; simp [hi, invalidTypeIssue]
    | bool b =>
        simp [parseMin1String] at h; subst h; intro i hi; simp at hi; simp [hi, invalidTypeIssue]
    | num n =>
        simp [parseMin1String] at h; subst h; intro i hi; simp at hi; simp [hi, invalidTypeIssue]
    | arr xs =>
        simp [parseMin1String] at h; subst h; intro i hi; simp at hi; simp [hi, invalidTypeIssue]
    | obj kvs =>
        simp [parseMin1String] at h; subst h; intro i hi; simp at hi; simp [hi, invalidTypeIssue]

theorem noSTL_parseTaskIdField (o : Option Value) (es : List ZodIssue)
    (h : parseTaskIdField o = .error es) : NoSTL es := by
  cases o with
  | none => simp [parseTaskIdField] at h; subst h; intro i hi; simp at hi; simp [hi, requiredIssue]
  | some v =>
    cases v with
    | str t => simp [parseTaskIdField] at h
    | null => simp [parseTaskIdField] at h
    | bool b =>
        simp [parseTaskIdField] at h; subst h; intro i hi; simp at hi; simp [hi, invalidTypeIssue]
    | num n =>
        simp [parseTaskIdField] at h; subst h; intro i hi; simp at hi; simp [hi, invalidTypeIssue]
    | arr xs =>
        simp [parseTaskIdField] at h; subst h; intro i hi; simp at hi; simp [hi, invalidTypeIssue]
    | obj kvs =>
        simp [parseTaskIdField] at h; subst h; intro i hi; simp at hi; simp [hi, invalidTypeIssue]

theorem noSTL_parseTimestampField (o : Option Value) (es : List ZodIssue)
    (h : parseTimestampField o = .error es) : NoSTL es := by
  cases o with
  | none =>
      simp [parseTimestampField] at h; subst h; intro i hi; simp at hi; simp [hi, requiredIssue]
  | some v =>
    cases v with
    | str t =>
        by_cases hd : isDatetime t = true <;> simp [parseTimestampField, hd] at h <;>
          (subst h; intro i hi; simp at hi; simp [hi])
    | null =>
        simp [parseTimestampField] at h
        subst h; intro i hi; simp at hi; simp [hi, invalidTypeIssue]
    | bool b =>
        simp [parseTimestampField] at h
        subst h; intro i hi; simp at hi; simp [hi, invalidTypeIssue]
    | num n =>
        simp [parseTimestampField] at h
        subst h; intro i hi; simp at hi; simp [hi, invalidTypeIssue]
    | arr xs =>
        simp [parseTimestampField] at h
        subst h; intro i hi; simp at hi; simp [hi, invalidTypeIssue]
    | obj kvs =>
        simp [parseTimestampField] at h
        subst h; intro i hi; simp at hi; simp [hi, invalidTypeIssue]

theorem noSTL_parseStatusField (o : Option Value) (es : List ZodIssue)
    (h : parseStatusField o = .error es) : NoSTL es := by
  cases o with
  | none =>
      simp [parseStatusField] at h; subst h; intro i hi; simp at hi; simp [hi, requiredIssue]
  | some v =>
    cases v with
    | str t =>
        by_cases hm : t ∈ memoryEntryStatuses <;> simp [parseStatusField, hm] at h <;>
          (subst h; intro i hi; simp at hi; simp [hi])
    | null =>
        simp [parseStatusField] at h; subst h; intro i hi; simp at hi; simp [hi, invalidTypeIssue]
    | bool b =>
        simp [parseStatusField] at h; subst h; intro i hi; simp at hi; simp [hi, invalidTypeIssue]
    | num n =>
        simp [parseStatusField] at h; subst h; intro i hi; simp at hi; simp [hi, invalidTypeIssue]
    | arr xs =>
        simp [parseStatusField] at h; subst h; intro i hi; simp at hi; simp [hi, invalidTypeIssue]
    | obj kvs =>
        simp [parseStatusField] at h; subst h; intro i hi; simp at hi; simp [hi, invalidTypeIssue]

theorem noSTL_parseContentWith (cp : ZParser) (hcp : NoSTLP cp) (o : Option Value)
    (es : List ZodIssue) (h : parseContentWith cp o = .error es) : NoSTL es := by
  cases o with
  | none =>
      simp [parseContentWith] at h; subst h; intro i hi; simp at hi; simp [hi, requiredIssue]
  | some v =>
      rw [parseContentWith, exceptMapError_error_iff] at h
      obtain ⟨fs, hfs, rfl⟩ := h
      exact noSTL_withKeyPath _ fs (hcp v fs hfs)

theorem noSTL_parseMetadataField (o : Option Value) (es : List ZodIssue)
    (h : parseMetadataField o = .error es) : NoSTL es := by
  cases o with
  | none => simp [parseMetadataField] at h
  | some v =>
    cases v with
    | obj kvs => simp [parseMetadataField] at h
    | null =>
        simp [parseMetadataField] at h; subst h; intro i hi; simp at hi; simp [hi, invalidTypeIssue]
    | bool b =>
        simp [parseMetadataField] at h; subst h; intro i hi; simp at hi; simp [hi, invalidTypeIssue]
    | num n =>
        simp [parseMetadataField] at h; subst h; intro i hi; simp at hi; simp [hi, invalidTypeIssue]
    | str s =>
        simp [parseMetadataField] at h; subst h; intro i hi; simp at hi; simp [hi, invalidTypeIssue]
    | arr xs =>
        simp [parseMetadataField] at h; subst h; intro i hi; simp at hi; simp [hi, invalidTypeIssue]

theorem noSTL_parseNumElems (i : Nat) (xs : List Value) (es : List ZodIssue)
    (h : parseNumElems i xs = .error es) : NoSTL es := by
  induction xs generalizing i es with
  | nil => simp [parseNumElems] at h
  | cons x rest ih =>
      rw [parseNumElems, exceptMap_error_iff] at h
      refine noSTL_zipE _ _ ?_ ?_ es h
      · intro fs hfs
        cases x <;> simp [parseNumElem1] at hfs <;>
          (subst hfs; intro j hj; simp at hj; simp [hj, invalidTypeIssue])
      · intro fs hfs
        exact ih (i + 1) fs hfs

theorem noSTL_parseEmbeddingField (o : Option Value) (es : List ZodIssue)
    (h : parseEmbeddingField o = .error es) : NoSTL es := by
  cases o with
  | none => simp [parseEmbeddingField] at h
  | some v =>
    cases v with
    | arr xs =>
        rw [parseEmbeddingField, exceptMap_error_iff] at h
        exact noSTL_parseNumElems 0 xs es h
    | null =>
        simp [parseEmbeddingField] at h
        subst h; intro i hi; simp at hi; simp [hi, invalidTypeIssue]
    | bool b =>
        simp [parseEmbeddingField] at h
        subst h; intro i hi; simp at hi; simp [hi, invalidTypeIssue]
    | num n =>
        simp [parseEmbeddingField] at h
        subst h; intro i hi; simp at hi; simp [hi, invalidTypeIssue]
    | str s =>
        simp [parseEmbeddingField] at h
        subst h; intro i hi; simp at hi; simp [hi, invalidTypeIssue]
    | obj kvs =>
        simp [parseEmbeddingField] at h
        subst h; intro i hi; simp at hi; simp [hi, invalidTypeIssue]

theorem noSTL_parseStrElems (i : Nat) (xs : List Value) (es : List ZodIssue)
    (h : parseStrElems i xs = .error es) : NoSTL es := by
  induction xs generalizing i es with
  | nil => simp [parseStrElems] at h
  | cons x rest ih =>
      rw [parseStrElems, exceptMap_error_iff] at h
      refine noSTL_zipE _ _ ?_ ?_ es h
      · intro fs hfs
        cases x <;> simp [parseStrElem1] at hfs <;>
          (subst hfs; intro j hj; simp at hj; simp [hj, invalidTypeIssue])
      · intro fs hfs
        exact ih (i + 1) fs hfs

theorem noSTL_parseTagsField (o : Option Value) (es : List ZodIssue)
    (h : parseTagsField o = .error es) : NoSTL es := by
  cases o with
  | none => simp [parseTagsField] at h
  | some v =>
    cases v with
    | arr xs =>
        rw [parseTagsField, exceptMap_error_iff] at h
        exact noSTL_parseStrElems 0 xs es h
    | null =>
        simp [parseTagsField] at h; subst h; intro i hi; simp at hi; simp [hi, invalidTypeIssue]
    | bool b =>
        simp [parseTagsField] at h; subst h; intro i hi; simp at hi; simp [hi, invalidTypeIssue]
    | num n =>
        simp [parseTagsField] at h; subst h; intro i hi; simp at hi; simp [hi, invalidTypeIssue]
    | str s =>
        simp [parseTagsField] at h; subst h; intro i hi; simp at hi; simp [hi, invalidTypeIssue]
    | obj kvs =>
        simp [parseTagsField] at h; subst h; intro i hi; simp at hi; simp [hi, invalidTypeIssue]

theorem noSTL_parseEntryWith (check : String → Option ZodIssue)
    (hchk : ∀ s i, check s = some i → i.code ≠ "STRING_TOO_LONG")
    (cp : ZParser) (hcp : NoSTLP cp) (v : Value) (es : List ZodIssue)
    (h : parseEntryWith check cp v = .error es) : NoSTL es := by
  cases v with
  | obj kvs =>
      rw [parseEntryWith, exceptMap_error_iff] at h
      refine noSTL_zipE _ _ (fun fs hfs => noSTL_parseIdField _ fs hfs) ?_ es h
      refine noSTL_zipE _ _ (fun fs hfs => noSTL_parseTypeWith _ hchk _ fs hfs) ?_
      refine noSTL_zipE _ _ (fun fs hfs => noSTL_parseMin1String _ _ fs hfs) ?_
      refine noSTL_zipE _ _ (fun fs hfs => noSTL_parseTaskIdField _ fs hfs) ?_
      refine noSTL_zipE _ _ (fun fs hfs => noSTL_parseMin1String _ _ fs hfs) ?_
      refine noSTL_zipE _ _ (fun fs hfs => noSTL_parseTimestampField _ fs hfs) ?_
      refine noSTL_zipE _ _ (fun fs hfs => noSTL_parseStatusField _ fs hfs) ?_
      refine noSTL_zipE _ _ (fun fs hfs => noSTL_parseContentWith cp hcp _ fs hfs) ?_
      refine noSTL_zipE _ _ (fun fs hfs => noSTL_parseMetadataField _ fs hfs) ?_
      exact noSTL_zipE _ _ (fun fs hfs => noSTL_parseEmbeddingField _ fs hfs)
        (fun fs hfs => noSTL_parseTagsField _ fs hfs)
  | null => simp [parseEntryWith] at h; subst h; intro i hi; simp at hi; simp [hi, invalidTypeIssue]
  | bool b =>
      simp [parseEntryWith] at h; subst h; intro i hi; simp at hi; simp [hi, invalidTypeIssue]
  | num n => simp [parseEntryWith] at h; subst h; intro i hi; simp at hi; simp [hi, invalidTypeIssue]
  | str s => simp [parseEntryWith] at h; subst h; intro i hi; simp at hi; simp [hi, invalidTypeIssue]
  | arr xs =>
      simp [parseEntryWith] at h; subst h; intro i hi; simp at hi; simp [hi, invalidTypeIssue]

theorem noSTL_checkNativeEnum (s : String) (i : ZodIssue) (h : checkNativeEnum s = some i) :
    i.code ≠ "STRING_TOO_LONG" := by
  rw [checkNativeEnum] at h
  split_ifs at h with hm
  simp at h
  simp [← h]

theorem noSTL_checkLiteral (lit s : String) (i : ZodIssue) (h : checkLiteral lit s = some i) :
    i.code ≠ "STRING_TOO_LONG" := by
  rw [checkLiteral] at h
  split_ifs at h with hm
  simp at h
  simp [← h]

/-- No error in the list carries the `STRING_TOO_LONG` code. -/
def NoSTLErrs (es : List ValidationError) : Prop := ∀ e ∈ es, e.code ≠ "STRING_TOO_LONG"

theorem noSTLErrs_parseZodError (issues : List ZodIssue) (h : NoSTL issues) :
    NoSTLErrs (parseZodError issues) := by
  intro e he
  rw [parseZodError] at he
  obtain ⟨i, hi, rfl⟩ := List.mem_map.mp he
  exact h i hi

theorem noSTLErrs_validate (v : Value) (es : List ValidationError)
    (h : MemoryEntryValidator.validate v = VErr es) : NoSTLErrs es := by
  cases hp : parseMemoryEntrySchema v with
  | ok e =>
      rw [MemoryEntryValidator.validate, hp] at h
      simp [VOk, VErr] at h
  | error issues =>
      rw [MemoryEntryValidator.validate, hp] at h
      simp [VErr] at h
      subst h
      exact noSTLErrs_parseZodError issues
        (noSTL_parseEntryWith checkNativeEnum noSTL_checkNativeEnum zRecord noSTL_zRecord
          v issues hp)

theorem noSTLErrs_variant (lit : String) (cp : ZParser) (hcp : NoSTLP cp) (u : Value)
    (es : List ValidationError)
    (h : variantResult (parseEntryWith (checkLiteral lit) cp u) = VErr es) :
    NoSTLErrs es := by
  cases hp : parseEntryWith (checkLiteral lit) cp u with
  | ok e =>
      rw [hp] at h
      simp [variantResult, VOk, VErr] at h
  | error issues =>
      rw [hp] at h
      simp [variantResult, VErr] at h
      subst h
      exact noSTLErrs_parseZodError issues
        (noSTL_parseEntryWith (checkLiteral lit) (noSTL_checkLiteral lit) cp hcp u issues hp)

theorem noSTLErrs_validateByType (d : MemoryEntry) (es : List ValidationError)
    (h : MemoryEntryValidator.validateByType d = VErr es) : NoSTLErrs es := by
  rw [MemoryEntryValidator.validateByType] at h
  split_ifs at h with h1 h2 h3 h4 h5
  · exact noSTLErrs_variant _ _ noSTL_taskStateContent _ es h
  · exact noSTLErrs_variant _ _ noSTL_commitDeltaContent _ es h
  · exact noSTLErrs_variant _ _ noSTL_reasoningEntryContent _ es h
  · exact noSTLErrs_variant _ _ noSTL_summaryCheckpointContent _ es h
  · exact noSTLErrs_variant _ _ noSTL_branchMetaContent _ es h
  · simp [VErr] at h
    subst h
    intro e he
    simp at he
    simp [he]

theorem noSTLErrs_validateTyped (v : Value) (es : List ValidationError)
    (h : MemoryEntryValidator.validateTyped v = VErr es) : NoSTLErrs es := by
  rcases validate_shape v with ⟨d, hd⟩ | ⟨es₀, hes₀⟩
  · rw [MemoryEntryValidator.validateTyped, hd] at h
    exact noSTLErrs_validateByType d es h
  · rw [MemoryEntryValidator.validateTyped, hes₀] at h
    have : es₀ = es := by simpa [VErr] using h
    exact this ▸ noSTLErrs_validate v es₀ hes₀

theorem mem_if_singleton {c : Prop} [Decidable c] (x e : ValidationError)
    (h : e ∈ (if c then [x] else [])) : e = x := by
  split_ifs at h
  · simpa using h
  · simp at h

theorem mem_if_singleton_inv {c : Prop} [Decidable c] (x e : ValidationError)
    (h : e ∈ (if c then [] else [x])) : e = x := by
  split_ifs at h
  · simp at h
  · simpa using h

theorem embeddingElemErrors_code (i : Nat) (l : List Value) (e : ValidationError)
    (h : e ∈ embeddingElemErrors i l) : e.code = "INVALID_VALUE" := by
  induction l generalizing i with
  | nil => simp [embeddingElemErrors] at h
  | cons x rest ih =>
      rw [embeddingElemErrors] at h
      rcases List.mem_append.mp h with h₁ | h₂
      · by_cases hv : isValidEmbeddingElem x = true <;> simp [hv] at h₁
        · simp [h₁]
      · exact ih (i + 1) h₂

theorem noSTLErrs_phase2 (d : MemoryEntry) (hobj : ∃ kvs, d.content = .obj kvs) :
    NoSTLErrs (phase2Errors d) := by
  intro e he
  rw [phase2Errors] at he
  rcases List.mem_append.mp he with h₁ | hemb
  rcases List.mem_append.mp h₁ with h₂ | hcontent
  rcases List.mem_append.mp h₂ with hproj | hbr
  · rw [ProjectValidator.validate, pushedErrors_guard] at hproj
    rcases List.mem_append.mp hproj with h₃ | h₄
    rcases List.mem_append.mp h₃ with h₅ | h₆
    · rw [mem_if_singleton _ e h₅]
      simp
    · rw [mem_if_singleton _ e h₆]
      simp
    · rw [mem_if_singleton_inv _ e h₄]
      simp
  · rw [BranchValidator.validate, pushedErrors_guard] at hbr
    rcases List.mem_append.mp hbr with h₃ | h₄
    rcases List.mem_append.mp h₃ with h₅ | h₆
    rcases List.mem_append.mp h₅ with h₇ | h₈
    rcases List.mem_append.mp h₇ with h₉ | h₁₀
    · rw [mem_if_singleton _ e h₉]
      simp
    · rw [mem_if_singleton _ e h₁₀]
      simp
    · rw [mem_if_singleton_inv _ e h₈]
      simp
    · rw [mem_if_singleton _ e h₆]
      simp
    · rw [mem_if_singleton _ e h₄]
      simp
  · obtain ⟨kvs, hk⟩ := hobj
    simp only [ContentSizeValidator.validate] at hcontent
    rw [pushedErrors_guard] at hcontent
    rcases List.mem_append.mp hcontent with h₃ | h₄
    · rw [mem_if_singleton _ e h₃]
      simp
    · rw [hk] at h₄
      simp [stringLengthErrors] at h₄
  · cases hke : d.embedding with
    | none =>
        rw [hke] at hemb
        simp at hemb
    | some ns =>
        rw [hke] at hemb
        simp only at hemb
        rw [EmbeddingValidator.validate, pushedErrors_guard] at hemb
        rcases List.mem_append.mp hemb with h₃ | h₄
        rcases List.mem_append.mp h₃ with h₅ | h₆
        · rw [mem_if_singleton _ e h₅]
          simp
        · rw [mem_if_singleton_inv _ e h₆]
          simp
        · have := embeddingElemErrors_code 0 _ e h₄
          simp [this]

theorem content_obj_of_validateTyped (v : Value) (d : MemoryEntry)
    (h : MemoryEntryValidator.validateTyped v = VOk d) :
    ∃ kvs, d.content = .obj kvs := by
  rw [validateTyped_ok_iff] at h
  obtain ⟨d₁, _, hbt⟩ := h
  rcases validateByType_ok_cases d₁ d hbt with
    ⟨_, hp⟩ | ⟨_, hp⟩ | ⟨_, hp⟩ | ⟨_, hp⟩ | ⟨_, hp⟩
  · obtain ⟨_, _, cin, hcin⟩ := entryFacts_of_parse _ _ _ _ hp
    exact taskStateContent_obj cin _ hcin
  · obtain ⟨_, _, cin, hcin⟩ := entryFacts_of_parse _ _ _ _ hp
    exact commitDeltaContent_obj cin _ hcin
  · obtain ⟨_, _, cin, hcin⟩ := entryFacts_of_parse _ _ _ _ hp
    exact reasoningEntryContent_obj cin _ hcin
  · obtain ⟨_, _, cin, hcin⟩ := entryFacts_of_parse _ _ _ _ hp
    exact summaryCheckpointContent_obj cin _ hcin
  · obtain ⟨_, _, cin, hcin⟩ := entryFacts_of_parse _ _ _ _ hp
    exact branchMetaContent_obj cin _ hcin

/-- C9: the content-size validator's string-length rule fires only when
the entire content value is itself a scalar string longer than 100,000
characters — never for strings nested inside a structured content object;
since phase 1 forces the content of every accepted entry to be a map, no
result of `validateMemoryEntry` ever contains a `STRING_TOO_LONG` error. -/
theorem string_too_long_unreachable :
    (∀ (v : Value) (err : ValidationError),
      err ∈ errorsOf (ContentSizeValidator.validate v) → err.code = "STRING_TOO_LONG" →
      ∃ s, v = .str s ∧ s.length > maxStringLength) ∧
    (∀ (cand : Value) (err : ValidationError),
      err ∈ errorsOf (UCPValidator.validateMemoryEntry cand) →
      err.code ≠ "STRING_TOO_LONG") := by
  constructor
  · intro v err hmem hcode
    simp only [ContentSizeValidator.validate] at hmem
    rw [errorsOf_guard] at hmem
    rcases List.mem_append.mp hmem with h₁ | h₂
    · rw [mem_if_singleton _ err h₁] at hcode
      simp at hcode
    · cases v with
      | str s =>
          rw [stringLengthErrors] at h₂
          by_cases hl : s.length > maxStringLength
          · exact ⟨s, rfl, hl⟩
          · rw [if_neg hl] at h₂
            simp at h₂
      | null => simp [stringLengthErrors] at h₂
      | bool b => simp [stringLengthErrors] at h₂
      | num n => simp [stringLengthErrors] at h₂
      | arr xs => simp [stringLengthErrors] at h₂
      | obj kvs => simp [stringLengthErrors] at h₂
  · intro cand err hmem
    rcases validateTyped_shape cand with ⟨d, hd⟩ | ⟨es, hes⟩
    · rw [validateMemoryEntry_of_ok cand d hd] at hmem
      by_cases hl : (phase2Errors d).length > 0
      · rw [if_pos hl] at hmem
        simp [errorsOf, VErr] at hmem
        exact noSTLErrs_phase2 d (content_obj_of_validateTyped cand d hd) err hmem
      · rw [if_neg hl] at hmem
        simp [errorsOf, VOk] at hmem
    · rw [validateMemoryEntry_of_err cand es hes] at hmem
      simp [errorsOf, VErr] at hmem
      exact noSTLErrs_validateTyped cand es hes err hmem

/-- A 100,001-character string. -/
def longStr : String := String.mk (List.replicate 100001 'x')

/-- C9 witness: the scalar-string case at a concrete 100,001-character
string, and the aggregate case at a concrete failing candidate. -/
theorem string_too_long_unreachable_witness :
    (∃ s, Value.str longStr = Value.str s ∧ s.length > maxStringLength) ∧
    (⟨"too_big", "Number must be less than or equal to 100",
      some ["content", "progress"], some [("received", none), ("expected", none)]⟩ :
        ValidationError).code ≠ "STRING_TOO_LONG" := by
  have hlen : longStr.length = 100001 := by
    rw [longStr, String.length_mk, List.length_replicate]
  have hgt : longStr.length > maxStringLength := by
    rw [hlen]
    decide
  have hsl : stringLengthErrors (Value.str longStr) =
      [⟨"STRING_TOO_LONG", "String length (" ++ toString longStr.length ++
        ") exceeds maximum allowed length (" ++ toString maxStringLength ++ ")",
        none, none⟩] := by
    rw [stringLengthErrors, if_pos hgt]
  have hmem : (⟨"STRING_TOO_LONG", "String length (" ++ toString longStr.length ++
      ") exceeds maximum allowed length (" ++ toString maxStringLength ++ ")",
      none, none⟩ : ValidationError) ∈
      errorsOf (ContentSizeValidator.validate (Value.str longStr)) := by
    simp only [ContentSizeValidator.validate]
    rw [errorsOf_guard]
    refine List.mem_append_right _ ?_
    rw [hsl]
    simp
  refine ⟨string_too_long_unreachable.1 (Value.str longStr) _ hmem rfl, ?_⟩
  have h₂ : (⟨"too_big", "Number must be less than or equal to 100",
      some ["content", "progress"], some [("received", none), ("expected", none)]⟩ :
        ValidationError) ∈ errorsOf (UCPValidator.validateMemoryEntry badProgressCand) := by
    have he : errorsOf (UCPValidator.validateMemoryEntry badProgressCand) =
        [⟨"too_big", "Number must be less than or equal to 100",
          some ["content", "progress"], some [("received", none), ("expected", none)]⟩] := rfl
    rw [he]
    simp
  exact string_too_long_unreachable.2 badProgressCand _ h₂
